import Mathlib

/-!
# Verification of the AI timetable generator core

Shallow embedding of the repository's scheduling core
(`src/models/data_models.py`, `src/algorithms/csp_solver.py`,
`src/algorithms/graph_optimizer.py`, `src/enhanced_timetable_generator.py`,
`src/app.py`) and proofs about it.

Modelling conventions:
* Python `"HH:MM"` time strings are represented by their value in minutes
  since midnight (`_time_to_minutes`); the hour extracted by
  `int(start_time.split(':')[0])` becomes `startMin / 60`.
* Real-valued scores (Python floats) are modelled by exact fractions
  (`Score` below: an integer numerator over a positive natural
  denominator, compared by cross-multiplication).  All concrete inputs
  used below keep the arithmetic far from any rounding boundary of binary
  floating point, so comparisons agree with the Python runtime.
* `int(x * 1.1)` on a nonnegative integer count is modelled by
  `(11 * x) / 10` (natural floor division), which matches CPython's float
  result for the course sizes used here.
* A Python method that mutates its object is modelled by a function
  returning the updated object (paired with the Python return value where
  that value matters).
* `datetime` unavailability windows are compared by the source against
  time-of-day slots after projecting both onto "today"
  (`conflicts_with_timeslot`); they are therefore embedded as clock-minute
  windows (`startMin`, `endMin`) of the current day.
-/

namespace Timetable

/-- Stable insertion sort: semantically equal to Python's stable `sort` /
`sorted` for a total preorder `le` (Python keeps the original relative
order of elements with equal keys, and so does inserting each element
after its equals). -/
def insertStable {α : Type} (le : α → α → Bool) (x : α) : List α → List α
  | [] => [x]
  | y :: ys => if le y x then y :: insertStable le x ys else x :: y :: ys

/-- Stable sort by a boolean `le`, mirroring Python's `sorted(..., key=...)`. -/
def stableSortBy {α : Type} (le : α → α → Bool) (l : List α) : List α :=
  l.foldl (fun acc x => insertStable le x acc) []

/-! ## Exact score arithmetic

Python's float scores are modelled as exact fractions.  Every denominator
produced in this development is positive (the only divisors are room
capacities and entry counts, both positive in every use), so comparison by
cross-multiplication agrees with the rational value order. -/

/-- An exact fraction standing for a Python float score. -/
structure Score where
  num : Int
  den : Nat
  deriving DecidableEq, Repr

instance : OfNat Score n := ⟨⟨(n : Int), 1⟩⟩

/-- Addition of fractions (no normalisation needed for comparisons). -/
def Score.add (a b : Score) : Score :=
  ⟨a.num * (b.den : Int) + b.num * (a.den : Int), a.den * b.den⟩

instance : Add Score := ⟨Score.add⟩

/-- Subtraction of fractions. -/
def Score.sub (a b : Score) : Score :=
  ⟨a.num * (b.den : Int) - b.num * (a.den : Int), a.den * b.den⟩

instance : Sub Score := ⟨Score.sub⟩

/-- Multiplication of fractions. -/
def Score.mul (a b : Score) : Score := ⟨a.num * b.num, a.den * b.den⟩

instance : Mul Score := ⟨Score.mul⟩

/-- Negation. -/
def Score.neg (a : Score) : Score := ⟨-a.num, a.den⟩

instance : Neg Score := ⟨Score.neg⟩

/-- Value-level strict order (`<` on the rational values, denominators
positive). -/
def Score.blt (a b : Score) : Bool := a.num * (b.den : Int) < b.num * (a.den : Int)

/-- Value-level order (`≤` on the rational values). -/
def Score.ble (a b : Score) : Bool := a.num * (b.den : Int) ≤ b.num * (a.den : Int)

/-- Value-level equality (`=` on the rational values). -/
def Score.eqv (a b : Score) : Bool := a.num * (b.den : Int) = b.num * (a.den : Int)

/-- Python `n / m` on nonnegative integers (e.g. `enrolled / capacity`). -/
def Score.ratio (n m : Nat) : Score := ⟨(n : Int), m⟩

/-- Python `x / n` for a positive integer count `n`. -/
def Score.divNat (a : Score) (n : Nat) : Score := ⟨a.num, a.den * n⟩

/-- Python `max(a, b)`: `a` unless `b` is strictly greater. -/
def Score.pymax (a b : Score) : Score := if a.blt b then b else a

/-- Python `min(a, b)`: `a` unless `b` is strictly smaller. -/
def Score.pymin (a b : Score) : Score := if a.ble b then a else b

/-- Sum of a list of scores (Python `sum` / `+=` accumulation). -/
def scoreSum (l : List Score) : Score := l.foldl (· + ·) 0

/-- Python `max(xs, key=f)` keeps the first of several maxima: a later
element replaces the current best only when strictly greater. -/
def argmaxFirst {α : Type} (f : α → Score) : α → List α → α
  | best, [] => best
  | best, x :: xs => argmaxFirst f (if (f best).blt (f x) then x else best) xs

/-- Python `min(xs, key=f)` keeps the first of several minima. -/
def argminFirst {α : Type} (f : α → Nat) : α → List α → α
  | best, [] => best
  | best, x :: xs => argminFirst f (if f x < f best then x else best) xs

/-- Lexicographic comparison of character lists by code point (the
ordering Python's `<` uses on strings). -/
def charListLt : List Char → List Char → Bool
  | [], [] => false
  | [], _ :: _ => true
  | _ :: _, [] => false
  | c :: cs, d :: ds =>
    c.toNat < d.toNat || (c.toNat = d.toNat && charListLt cs ds)

/-- Python `s1 < s2` on strings. -/
def strLt (a b : String) : Bool := charListLt a.data b.data

/-- Python `list.remove(x)`: drop the first element equal to `x`
(the caller guards against `x` being absent). -/
def removeFirst {α : Type} [DecidableEq α] (x : α) : List α → List α
  | [] => []
  | y :: ys => if y = x then ys else y :: removeFirst x ys

/-! ## Data model (`src/models/data_models.py`) -/

/-- `DayOfWeek` enum. -/
inductive DayOfWeek where
  | monday | tuesday | wednesday | thursday | friday | saturday | sunday
  deriving DecidableEq, Repr

/-- `DayOfWeek.value` strings. -/
def DayOfWeek.value : DayOfWeek → String
  | .monday => "Monday"
  | .tuesday => "Tuesday"
  | .wednesday => "Wednesday"
  | .thursday => "Thursday"
  | .friday => "Friday"
  | .saturday => "Saturday"
  | .sunday => "Sunday"

/-- Iteration order of `for day in DayOfWeek` (declaration order). -/
def DayOfWeek.all : List DayOfWeek :=
  [.monday, .tuesday, .wednesday, .thursday, .friday, .saturday, .sunday]

/-- `CourseType` enum. -/
inductive CourseType where
  | lecture | lab | tutorial | seminar | practical | workshop
  deriving DecidableEq, Repr

/-- `CourseType.value` strings (used as the second sort key of the greedy
solver). -/
def CourseType.value : CourseType → String
  | .lecture => "Lecture"
  | .lab => "Lab"
  | .tutorial => "Tutorial"
  | .seminar => "Seminar"
  | .practical => "Practical"
  | .workshop => "Workshop"

/-- `TimeSlot`: `start_time`/`end_time` are kept in minutes since midnight
(`_time_to_minutes` of the source's `"HH:MM"` strings); `duration` is the
independently stored duration field. -/
structure TimeSlot where
  id : String
  day : DayOfWeek
  startMin : Nat
  endMin : Nat
  duration : Nat
  deriving DecidableEq, Repr

/-- `TimeSlot.overlaps_with`: same day and intersecting half-open minute
ranges. -/
def TimeSlot.overlaps_with (a b : TimeSlot) : Bool :=
  a.day = b.day && !(a.endMin ≤ b.startMin || b.endMin ≤ a.startMin)

/-- Hour of the slot's start (`int(start_time.split(':')[0])`). -/
def TimeSlot.startHour (a : TimeSlot) : Nat := a.startMin / 60

/-- `Classroom`. -/
structure Classroom where
  id : String
  name : String
  capacity : Nat
  roomType : String
  equipment : List String
  deriving DecidableEq, Repr

/-- `Classroom.can_accommodate`. -/
def Classroom.can_accommodate (r : Classroom) (requiredCapacity : Nat)
    (requiredEquipment : List String) : Bool :=
  requiredCapacity ≤ r.capacity && requiredEquipment.all (fun eq => eq ∈ r.equipment)

/-- `Faculty` (the fields used by the core). -/
structure Faculty where
  id : String
  name : String
  department : String
  availableSlots : List TimeSlot
  preferredSlots : List TimeSlot
  unavailableSlots : List TimeSlot
  deriving DecidableEq, Repr

/-- `Faculty.is_available`: no overlap with any unavailable slot and an
overlap with at least one available slot. -/
def Faculty.is_available (f : Faculty) (slot : TimeSlot) : Bool :=
  f.unavailableSlots.all (fun u => !slot.overlaps_with u) &&
  f.availableSlots.any (fun a => slot.overlaps_with a)

/-- `Faculty.get_preference_score`: 1.0 if the slot overlaps a preferred
slot, else the neutral 0.5. -/
def Faculty.get_preference_score (f : Faculty) (slot : TimeSlot) : Score :=
  if f.preferredSlots.any (fun p => slot.overlaps_with p) then 1 else Score.ratio 1 2

/-- `Course` (the fields used by the core). -/
structure Course where
  id : String
  name : String
  code : String
  department : String
  courseType : CourseType
  enrolledStudents : Nat
  duration : Nat
  sessionsPerWeek : Nat
  requiredEquipment : List String
  facultyId : String
  deriving DecidableEq, Repr

/-- `Course.get_required_capacity`: `int(self.enrolled_students * 1.1)`,
modelled as floor of the exact rational (which agrees with CPython for the
counts used in this development). -/
def Course.get_required_capacity (c : Course) : Nat :=
  (11 * c.enrolledStudents) / 10

/-- `Course.is_compatible_with_room`. -/
def Course.is_compatible_with_room (c : Course) (room : Classroom) : Bool :=
  room.can_accommodate c.get_required_capacity c.requiredEquipment &&
  !(c.courseType = CourseType.lab && room.roomType ≠ "Lab")

/-- `ScheduleEntry`. -/
structure ScheduleEntry where
  course : Course
  faculty : Faculty
  classroom : Classroom
  timeSlot : TimeSlot
  deriving DecidableEq, Repr

/-- `Schedule`: entries, recorded conflict strings, optimization score. -/
structure Schedule where
  entries : List ScheduleEntry
  conflicts : List String
  optimizationScore : Score
  deriving DecidableEq, Repr

/-- `Schedule()` constructor. -/
def Schedule.empty : Schedule := ⟨[], [], 0⟩

/-- `Schedule.check_conflicts`: for each existing entry whose slot overlaps
the new one, report a faculty clash and/or a classroom clash. -/
def Schedule.check_conflicts (s : Schedule) (newEntry : ScheduleEntry) : List String :=
  (s.entries.map (fun existing =>
    if newEntry.timeSlot.overlaps_with existing.timeSlot then
      (if newEntry.faculty.id = existing.faculty.id then
        ["Faculty " ++ newEntry.faculty.name ++ " has conflicting classes"] else []) ++
      (if newEntry.classroom.id = existing.classroom.id then
        ["Classroom " ++ newEntry.classroom.name ++ " is double-booked"] else [])
    else [])).flatten

/-- `Schedule.add_entry`: on conflicts, record them and return `false`
without inserting; otherwise append the entry and return `true`. -/
def Schedule.add_entry (s : Schedule) (e : ScheduleEntry) : Schedule × Bool :=
  let cs := s.check_conflicts e
  if cs.isEmpty then ({ s with entries := s.entries ++ [e] }, true)
  else ({ s with conflicts := s.conflicts ++ cs }, false)

/-- `Schedule.calculate_room_utilization`: average over entries of
`min(enrolled/capacity, 1)`. -/
def Schedule.calculate_room_utilization (s : Schedule) : Score :=
  if s.entries.isEmpty then 0
  else (scoreSum (s.entries.map (fun e =>
    Score.pymin (Score.ratio e.course.enrolledStudents e.classroom.capacity) 1))).divNat
    s.entries.length

/-- `Schedule.calculate_optimization_score`: updates the stored score to
`(Σ preference − 10·|conflicts| + 5·room_utilization) / |entries|`;
with no entries the stored score is left untouched (the method returns
0.0 early without assigning). -/
def Schedule.calculate_optimization_score (s : Schedule) : Schedule :=
  if s.entries.isEmpty then s
  else
    let score := scoreSum (s.entries.map (fun e =>
        e.faculty.get_preference_score e.timeSlot))
      - (Score.ratio s.conflicts.length 1) * 10
      + s.calculate_room_utilization * 5
    { s with optimizationScore := score.divNat s.entries.length }

/-- `Schedule.is_valid`. -/
def Schedule.is_valid (s : Schedule) : Bool := s.conflicts.isEmpty

/-- The problem instance the solver classes are constructed with
(`courses`, `faculty`, `classrooms`, `time_slots`). -/
structure ProblemData where
  courses : List Course
  faculty : List Faculty
  classrooms : List Classroom
  timeSlots : List TimeSlot

/-- Placeholder values, used only to give `List.getD` a default. -/
def dummyCourse : Course := ⟨"", "", "", "", .lecture, 0, 0, 0, [], ""⟩

def dummyFaculty : Faculty := ⟨"", "", "", [], [], []⟩

def dummyClassroom : Classroom := ⟨"", "", 0, "", []⟩

def dummySlot : TimeSlot := ⟨"", .monday, 0, 0, 0⟩

def dummyEntry : ScheduleEntry := ⟨dummyCourse, dummyFaculty, dummyClassroom, dummySlot⟩

/-! ## Assignment scoring (`GreedySolver._calculate_assignment_score`,
`GraphBasedOptimizer._calculate_assignment_score`) -/

/-- Room-utilisation term of `GreedySolver._calculate_assignment_score`
(csp_solver.py:435-439): `if 0.7 <= u <= 1.0: +20 elif u < 0.7: +10*u`
— and nothing at all when `u > 1.0`. -/
def greedyRoomUtilTerm (u : Score) : Score :=
  if (Score.ratio 7 10).ble u && u.ble 1 then 20
  else if u.blt (Score.ratio 7 10) then (10 : Score) * u else 0

/-- Room-utilisation term of
`GraphBasedOptimizer._calculate_assignment_score`
(graph_optimizer.py:239-243): `if 0.7 <= u <= 1.0: +20 else: +10*u`. -/
def optimizerRoomUtilTerm (u : Score) : Score :=
  if (Score.ratio 7 10).ble u && u.ble 1 then 20 else (10 : Score) * u

/-- `GreedySolver._calculate_assignment_score`. -/
def GreedySolver.calculate_assignment_score (c : Course) (f : Faculty)
    (r : Classroom) (t : TimeSlot) : Score :=
  f.get_preference_score t * 10
  + greedyRoomUtilTerm (Score.ratio c.enrolledStudents r.capacity)
  + (if 9 ≤ t.startHour ∧ t.startHour ≤ 11 then 5
     else if 14 ≤ t.startHour ∧ t.startHour ≤ 16 then 3 else 0)
  + (if c.courseType = CourseType.lab ∧ r.roomType = "Lab" then 15 else 0)

/-- `GraphBasedOptimizer._calculate_assignment_score`. -/
def GraphBasedOptimizer.calculate_assignment_score (c : Course) (f : Faculty)
    (r : Classroom) (t : TimeSlot) : Score :=
  f.get_preference_score t * 10
  + optimizerRoomUtilTerm (Score.ratio c.enrolledStudents r.capacity)
  + (if 9 ≤ t.startHour ∧ t.startHour ≤ 16 then 5 else 0)
  + (if c.courseType = CourseType.lab ∧ r.roomType = "Lab" then 15 else 0)

/-! ## Greedy solver (`GreedySolver`) -/

/-- Faculty candidates for a course: the single faculty whose id equals
`course.faculty_id` if one exists, otherwise all faculty of the course's
department (`GreedySolver._find_best_assignment`, also
`CSPSolver._initialize_domains`). -/
def facultyCandidates (faculty : List Faculty) (course : Course) : List Faculty :=
  match faculty.find? (fun f => f.id = course.facultyId) with
  | some f => [f]
  | none => faculty.filter (fun f => f.department = course.department)

/-- Candidate `(slot, room, faculty)` tuples in the source's iteration
order: time slots outermost, then classrooms, then faculty. -/
def candidateTuples (timeSlots : List TimeSlot) (classrooms : List Classroom)
    (faculty : List Faculty) : List (TimeSlot × Classroom × Faculty) :=
  (timeSlots.map (fun t =>
    (classrooms.map (fun r => faculty.map (fun f => (t, r, f)))).flatten)).flatten

/-- The loop body of `GreedySolver._find_best_assignment`: keep the
candidate when it passes the unary checks and the conflict check and
strictly beats the best score so far. -/
def greedyStep (course : Course) (schedule : Schedule)
    (best : Score × Option (TimeSlot × Classroom × Faculty))
    (cand : TimeSlot × Classroom × Faculty) :
    Score × Option (TimeSlot × Classroom × Faculty) :=
  if cand.2.2.is_available cand.1 && course.is_compatible_with_room cand.2.1
      && course.duration ≤ cand.1.duration then
    if (schedule.check_conflicts ⟨course, cand.2.2, cand.2.1, cand.1⟩).isEmpty then
      if best.1.blt (GreedySolver.calculate_assignment_score course cand.2.2
          cand.2.1 cand.1) then
        (GreedySolver.calculate_assignment_score course cand.2.2 cand.2.1 cand.1,
          some cand)
      else best
    else best
  else best

/-- `GreedySolver._find_best_assignment`: best-scoring feasible tuple
(`faculty_available`, room compatibility, duration bound, no conflict with
the in-progress schedule); ties keep the earliest candidate. -/
def GreedySolver.find_best_assignment (p : ProblemData) (course : Course)
    (schedule : Schedule) : Option (TimeSlot × Classroom × Faculty) :=
  ((candidateTuples p.timeSlots p.classrooms
    (facultyCandidates p.faculty course)).foldl (greedyStep course schedule)
    (⟨-1, 1⟩, none)).2

/-- Sort order of the greedy solver's session list: Python key
`(-enrolled_students, course_type.value)`, ascending, stable. -/
def greedySessionLE (a b : Course × Nat) : Bool :=
  b.1.enrolledStudents < a.1.enrolledStudents
  || (a.1.enrolledStudents = b.1.enrolledStudents
      && !(strLt b.1.courseType.value a.1.courseType.value))

/-- The session list of a problem: each course expanded to
`sessions_per_week` numbered sessions. -/
def courseSessions (courses : List Course) : List (Course × Nat) :=
  (courses.map (fun c => (List.range c.sessionsPerWeek).map (fun i => (c, i + 1)))).flatten

/-- `GreedySolver.solve`: sort sessions, repeatedly insert the best
feasible assignment (skipping sessions with none), then recompute the
optimization score. -/
def GreedySolver.solve (p : ProblemData) : Schedule :=
  let sorted := stableSortBy greedySessionLE (courseSessions p.courses)
  let schedule := sorted.foldl (fun sched cs =>
    match GreedySolver.find_best_assignment p cs.1 sched with
    | some (t, r, f) => (sched.add_entry ⟨cs.1, f, r, t⟩).1
    | none => sched) Schedule.empty
  schedule.calculate_optimization_score

/-! ## Strategy selection (`app.choose_optimal_algorithm`) -/

/-- `SolverType` values accepted by the orchestrator. -/
inductive SolverType where
  | greedy | hybrid | cspBacktracking
  deriving DecidableEq, Repr

/-- The complexity score of `choose_optimal_algorithm`: the product of the
effective counts (each count replaced by the selected-subset count when
that is positive). -/
def effectiveComplexity (coursesCount facultyCount classroomsCount
    selectedCoursesCount selectedFacultyCount : Nat) : Nat :=
  (if 0 < selectedCoursesCount then selectedCoursesCount else coursesCount)
  * (if 0 < selectedFacultyCount then selectedFacultyCount else facultyCount)
  * classroomsCount

/-- `choose_optimal_algorithm`: the complexity score is thresholded at 100
and 1000. -/
def choose_optimal_algorithm (coursesCount facultyCount classroomsCount
    selectedCoursesCount selectedFacultyCount : Nat) : SolverType :=
  if effectiveComplexity coursesCount facultyCount classroomsCount
      selectedCoursesCount selectedFacultyCount ≤ 100 then SolverType.greedy
  else if effectiveComplexity coursesCount facultyCount classroomsCount
      selectedCoursesCount selectedFacultyCount ≤ 1000 then SolverType.hybrid
  else SolverType.cspBacktracking

/-! ## Graph-based optimiser (`GraphBasedOptimizer`) -/

/-- `GraphBasedOptimizer._entries_conflict`. -/
def GraphBasedOptimizer.entries_conflict (e1 e2 : ScheduleEntry) : Bool :=
  e1.timeSlot.overlaps_with e2.timeSlot
  && (e1.faculty.id = e2.faculty.id || e1.classroom.id = e2.classroom.id)

/-- Edges of `_create_assignment_graph`: one edge per conflicting pair of
entry indices `i < j`. -/
def assignmentEdges (entries : List ScheduleEntry) : List (Nat × Nat) :=
  let n := entries.length
  ((List.range n).map (fun i =>
    ((List.range n).filter (fun j => i < j)).filterMap (fun j =>
      if GraphBasedOptimizer.entries_conflict (entries.getD i dummyEntry)
          (entries.getD j dummyEntry)
      then some (i, j) else none))).flatten

/-- Degree of a node in the assignment graph. -/
def edgeDegree (edges : List (Nat × Nat)) (i : Nat) : Nat :=
  edges.countP (fun e => e.1 = i || e.2 = i)

/-- Smallest natural number missing from a list (the color chosen by
`networkx.greedy_color` for a node whose neighbors use `used`). -/
def smallestMissing (used : List Nat) : Nat :=
  ((List.range (used.length + 1)).find? (fun c => !used.contains c)).getD 0

/-- `networkx.greedy_color(graph, strategy='largest_first')` on the
assignment graph: visit nodes in stable descending-degree order, give each
the smallest color unused by its already-colored neighbors; the result
list is in coloring (insertion) order. -/
def greedyColoring (entries : List ScheduleEntry) : List (Nat × Nat) :=
  let edges := assignmentEdges entries
  let order := stableSortBy (fun a b => edgeDegree edges b ≤ edgeDegree edges a)
    (List.range entries.length)
  order.foldl (fun acc u =>
    let nbrColors := acc.filterMap (fun p =>
      if edges.any (fun e => (e.1 = u && e.2 = p.1) || (e.2 = u && e.1 = p.1))
      then some p.2 else none)
    acc ++ [(u, smallestMissing nbrColors)]) []

/-- `_resolve_conflicts_with_coloring`: group entries by color; groups
appear in order of a color's first appearance (Python `defaultdict`
insertion order), each group in coloring order. -/
def colorGroups (entries : List ScheduleEntry) : List (Nat × List ScheduleEntry) :=
  (greedyColoring entries).foldl (fun groups p =>
    let e := entries.getD p.1 dummyEntry
    if groups.any (fun g => g.1 = p.2)
    then groups.map (fun g => if g.1 = p.2 then (g.1, g.2 ++ [e]) else g)
    else groups ++ [(p.2, [e])]) []

/-- The faculty pool searched by
`GraphBasedOptimizer._find_better_assignment`: filtered (not searched) by
`course.faculty_id` when that is nonempty, else by department. -/
def optimizerFacultyPool (faculty : List Faculty) (course : Course) : List Faculty :=
  if course.facultyId ≠ "" then faculty.filter (fun f => f.id = course.facultyId)
  else faculty.filter (fun f => f.department = course.department)

/-- The loop body of `GraphBasedOptimizer._find_better_assignment`: the
unary guard omits the duration bound. -/
def optimizerStep (course : Course) (currentSchedule : Schedule)
    (best : Score × Option (Course × Faculty × Classroom × TimeSlot))
    (cand : TimeSlot × Classroom × Faculty) :
    Score × Option (Course × Faculty × Classroom × TimeSlot) :=
  if cand.2.2.is_available cand.1 && course.is_compatible_with_room cand.2.1 then
    if (currentSchedule.check_conflicts ⟨course, cand.2.2, cand.2.1, cand.1⟩).isEmpty then
      if best.1.blt (GraphBasedOptimizer.calculate_assignment_score course cand.2.2
          cand.2.1 cand.1) then
        (GraphBasedOptimizer.calculate_assignment_score course cand.2.2 cand.2.1 cand.1,
          some (course, cand.2.2, cand.2.1, cand.1))
      else best
    else best
  else best

/-- `GraphBasedOptimizer._find_better_assignment`: best-scoring tuple with
an available faculty and a compatible room that does not conflict with the
partially rebuilt schedule.  Note: no duration check. -/
def GraphBasedOptimizer.find_better_assignment (p : ProblemData)
    (originalEntry : ScheduleEntry) (currentSchedule : Schedule) :
    Option (Course × Faculty × Classroom × TimeSlot) :=
  ((candidateTuples p.timeSlots p.classrooms
    (optimizerFacultyPool p.faculty originalEntry.course)).foldl
    (optimizerStep originalEntry.course currentSchedule) (⟨-1, 1⟩, none)).2

/-- `GraphBasedOptimizer.optimize_schedule`: rebuild the schedule color
group by color group, replacing each entry by its best feasible
reassignment when one exists, else re-inserting the original (the result
of `add_entry` is ignored in both cases), then recompute the score. -/
def GraphBasedOptimizer.optimize_schedule (p : ProblemData) (initial : Schedule) :
    Schedule :=
  let rebuilt := (colorGroups initial.entries).foldl (fun sched g =>
    g.2.foldl (fun sched e =>
      match GraphBasedOptimizer.find_better_assignment p e sched with
      | some (c, f, r, t) => (sched.add_entry ⟨c, f, r, t⟩).1
      | none => (sched.add_entry e).1) sched) Schedule.empty
  rebuilt.calculate_optimization_score

/-! ## Adaptive re-scheduler (`enhanced_timetable_generator.py`) -/

/-- `FacultyUnavailability`: the source stores `datetime` bounds and
compares them against slots projected onto today
(`conflicts_with_timeslot`), so the window is embedded as clock minutes of
the current day. -/
structure FacultyUnavailability where
  facultyId : String
  startMin : Nat
  endMin : Nat
  priority : Nat
  deriving DecidableEq, Repr

/-- `FacultyUnavailability.conflicts_with_timeslot`: clock-window overlap;
the slot's day is ignored (both sides are projected onto today). -/
def FacultyUnavailability.conflicts_with_timeslot (u : FacultyUnavailability)
    (t : TimeSlot) : Bool :=
  !(u.endMin ≤ t.startMin || t.endMin ≤ u.startMin)

/-- `RescheduleOption` with the constructor defaults already resolved:
`new_classroom` defaults to the original room, `substitute_faculty` to the
original faculty. -/
structure RescheduleOption where
  originalEntry : ScheduleEntry
  newTimeSlot : TimeSlot
  newClassroom : Classroom
  substituteFaculty : Faculty
  deriving DecidableEq, Repr

/-- `RescheduleOption(entry, slot)` with both optional arguments omitted. -/
def RescheduleOption.make (e : ScheduleEntry) (t : TimeSlot) : RescheduleOption :=
  ⟨e, t, e.classroom, e.faculty⟩

/-- `_identify_free_periods`: the fixed 60-minute free-period pool
(11:00-12:00, 13:00-14:00, 15:00-16:00 on every day of the week, outer
loop over the windows, inner loop over the days). -/
def free_period_slots : List TimeSlot :=
  (([("11:00", "12:00", 660, 720), ("13:00", "14:00", 780, 840),
     ("15:00", "16:00", 900, 960)] : List (String × String × Nat × Nat)).map
    (fun w => DayOfWeek.all.map (fun d =>
      TimeSlot.mk ("free_" ++ d.value ++ "_" ++ w.1 ++ "_" ++ w.2.1) d
        w.2.2.1 w.2.2.2 60))).flatten

/-- `_build_faculty_substitution_matrix` followed by the lookup
`self.faculty_substitution_matrix[faculty_id]`: `none` when the id keys no
row, else the ids of the other faculty of the same department in list
order. -/
def faculty_substitution_matrix (faculty : List Faculty) (fid : String) :
    Option (List String) :=
  match faculty.find? (fun f => f.id = fid) with
  | some f => some ((faculty.filter
      (fun g => g.department = f.department && g.id ≠ f.id)).map (fun g => g.id))
  | none => none

/-- `_conflicts_with_schedule`: some existing entry overlaps the slot and
shares the faculty, the classroom, or the course. -/
def conflicts_with_schedule (schedule : Schedule) (course : Course)
    (faculty : Faculty) (classroom : Classroom) (timeSlot : TimeSlot) : Bool :=
  schedule.entries.any (fun e =>
    timeSlot.overlaps_with e.timeSlot
    && (faculty.id = e.faculty.id || classroom.id = e.classroom.id
        || course.id = e.course.id))

/-- `_try_free_period_rescheduling`: same faculty and room, any free-period
slot the faculty is available for that clears the schedule.  (The
unavailability is not consulted here.) -/
def try_free_period_rescheduling (schedule : Schedule) (entry : ScheduleEntry) :
    List RescheduleOption :=
  (free_period_slots.filter (fun fs =>
    entry.faculty.is_available fs
    && !conflicts_with_schedule schedule entry.course entry.faculty
        entry.classroom fs)).map (RescheduleOption.make entry)

/-- `_try_time_shift_rescheduling`: any other time slot that does not
conflict with the unavailability, with the original faculty and room. -/
def try_time_shift_rescheduling (timeSlots : List TimeSlot) (schedule : Schedule)
    (entry : ScheduleEntry) (u : FacultyUnavailability) : List RescheduleOption :=
  (timeSlots.filter (fun t =>
    !(t.id = entry.timeSlot.id || u.conflicts_with_timeslot t)
    && entry.faculty.is_available t
    && !conflicts_with_schedule schedule entry.course entry.faculty
        entry.classroom t)).map (RescheduleOption.make entry)

/-- `_try_faculty_substitution`: same slot and room, a substitute from the
matrix who is available and clears the schedule. -/
def try_faculty_substitution (faculty : List Faculty) (schedule : Schedule)
    (entry : ScheduleEntry) : List RescheduleOption :=
  match faculty_substitution_matrix faculty entry.faculty.id with
  | none => []
  | some subIds => subIds.filterMap (fun sid =>
      match faculty.find? (fun f => f.id = sid) with
      | none => none
      | some sub =>
        if sub.is_available entry.timeSlot
            && !conflicts_with_schedule schedule entry.course sub
                entry.classroom entry.timeSlot
        then some ⟨entry, entry.timeSlot, entry.classroom, sub⟩ else none)

/-- `_try_complex_rescheduling`: any other slot not conflicting with the
unavailability, paired with any compatible room, original faculty. -/
def try_complex_rescheduling (timeSlots : List TimeSlot)
    (classrooms : List Classroom) (schedule : Schedule) (entry : ScheduleEntry)
    (u : FacultyUnavailability) : List RescheduleOption :=
  ((timeSlots.filter (fun t =>
    !(t.id = entry.timeSlot.id || u.conflicts_with_timeslot t))).map (fun t =>
      (classrooms.filter (fun r =>
        entry.faculty.is_available t
        && entry.course.is_compatible_with_room r
        && !conflicts_with_schedule schedule entry.course entry.faculty r t)).map
        (fun r => (⟨entry, t, r, entry.faculty⟩ : RescheduleOption)))).flatten

/-- `_is_break_time`: the slot starts at hour 10, 12 or 15. -/
def is_break_time (t : TimeSlot) : Bool :=
  t.startHour = 10 || t.startHour = 12 || t.startHour = 15

/-- `_calculate_feasibility_score`: base 100, penalties and bonuses,
clamped at 0. -/
def calculate_feasibility_score (o : RescheduleOption) : Score :=
  let s : Score := 100
  let s := if o.newTimeSlot.id ≠ o.originalEntry.timeSlot.id then s - 10 else s
  let s := if o.newClassroom.id ≠ o.originalEntry.classroom.id then s - 5 else s
  let s := if o.substituteFaculty.id ≠ o.originalEntry.faculty.id then s - 20 else s
  let s := if free_period_slots.contains o.newTimeSlot then s + 15 else s
  let s := if 9 ≤ o.newTimeSlot.startHour ∧ o.newTimeSlot.startHour ≤ 11 then s + 5
    else if 16 ≤ o.newTimeSlot.startHour then s - 10 else s
  let s := if is_break_time o.newTimeSlot then s - 15 else s
  s.pymax 0

/-- `_generate_reschedule_options`: the four option families in source
order (free period, time shift, substitution, time+room). -/
def generate_reschedule_options (p : ProblemData) (schedule : Schedule)
    (entry : ScheduleEntry) (u : FacultyUnavailability) : List RescheduleOption :=
  try_free_period_rescheduling schedule entry
  ++ try_time_shift_rescheduling p.timeSlots schedule entry u
  ++ try_faculty_substitution p.faculty schedule entry
  ++ try_complex_rescheduling p.timeSlots p.classrooms schedule entry u

/-- `_apply_reschedule_option`: remove the original entry (first equal
element; if it is absent the `list.remove` raise is caught and `False`
returned), build the new entry, and `add_entry` it — the boolean returned
by `add_entry` is discarded, so the method reports `True` whenever the
removal went through. -/
def apply_reschedule_option (schedule : Schedule) (o : RescheduleOption) :
    Schedule × Bool :=
  if o.originalEntry ∈ schedule.entries then
    let s1 : Schedule := { schedule with
      entries := removeFirst o.originalEntry schedule.entries }
    ((s1.add_entry ⟨o.originalEntry.course, o.substituteFaculty, o.newClassroom,
        o.newTimeSlot⟩).1, true)
  else (schedule, false)

/-- `_reschedule_entry`: generate options, take the first one of maximal
feasibility score (Python `max`), and apply it. -/
def reschedule_entry (p : ProblemData) (schedule : Schedule)
    (entry : ScheduleEntry) (u : FacultyUnavailability) : Schedule × Bool :=
  match generate_reschedule_options p schedule entry u with
  | [] => (schedule, false)
  | o :: os => apply_reschedule_option schedule
      (argmaxFirst calculate_feasibility_score o os)

/-- `_find_affected_entries`. -/
def find_affected_entries (schedule : Schedule) (u : FacultyUnavailability) :
    List ScheduleEntry :=
  schedule.entries.filter (fun e =>
    e.faculty.id = u.facultyId && u.conflicts_with_timeslot e.timeSlot)

/-- `_handle_single_unavailability`: reschedule every affected entry in
turn (statistics and logging omitted — they do not alter the schedule). -/
def handle_single_unavailability (p : ProblemData) (schedule : Schedule)
    (u : FacultyUnavailability) : Schedule :=
  (find_affected_entries schedule u).foldl
    (fun sched e => (reschedule_entry p sched e u).1) schedule

/-! ## CSP backtracking solver (`CSPSolver`)

A domain value is a `(time_slot, classroom, faculty)` tuple.  Variable `i`
is the `i`-th entry of the expanded session list (its course is what the
constraints consult; the session number is only a label).  The mutable
per-variable domains are modelled as a function `Nat → List CSPValue`
passed through the recursion, and the recursion itself carries a fuel
argument: the search assigns one variable per level, so
`|variables| + 1` fuel reproduces the source's recursion exactly, while
running out of fuel models the wall-clock deadline return (`return None`
with the current domains, restored by the ancestors' unwinding). -/

/-- A CSP domain value `(time_slot, classroom, faculty)`. -/
abbrev CSPValue := TimeSlot × Classroom × Faculty

/-- One CSP variable per (course, session). -/
def cspVariables (courses : List Course) : List Course :=
  (courses.map (fun c => (List.range c.sessionsPerWeek).map (fun _ => c))).flatten

/-- The unary feasibility test of `_initialize_domains`: faculty
availability, room compatibility, and slot duration at least the course
duration. -/
def unaryOK (c : Course) (v : CSPValue) : Bool :=
  v.2.2.is_available v.1 && c.is_compatible_with_room v.2.1
  && c.duration ≤ v.1.duration

/-- Course of variable `i`. -/
def varCourse (vars : List Course) (i : Nat) : Course := vars.getD i dummyCourse

/-- `CSPSolver._initialize_domains` for variable `i`. -/
def initial_domains (p : ProblemData) (vars : List Course) :
    Nat → List CSPValue := fun i =>
  (candidateTuples p.timeSlots p.classrooms
    (facultyCandidates p.faculty (varCourse vars i))).filter
    (fun v => unaryOK (varCourse vars i) v)

/-- The pairwise test of `NoConflictConstraint.is_satisfied` (and of
`_forward_check`): overlapping slots with equal faculty or equal room. -/
def valuesConflict (v w : CSPValue) : Bool :=
  v.1.overlaps_with w.1 && (v.2.2.id = w.2.2.id || v.2.1.id = w.2.1.id)

/-- All-pairs version over the assigned values, as iterated by
`NoConflictConstraint.is_satisfied`. -/
def noConflictPairwise : List CSPValue → Bool
  | [] => true
  | v :: vs => vs.all (fun w => !valuesConflict v w) && noConflictPairwise vs

/-- `CSPSolver._is_consistent`: the three constraint classes. -/
def is_consistent (vars : List Course) (assign : List (Nat × CSPValue)) : Bool :=
  noConflictPairwise (assign.map (fun p => p.2))
  && assign.all (fun p => p.2.2.2.is_available p.2.1)
  && assign.all (fun p => (varCourse vars p.1).is_compatible_with_room p.2.2.1)

/-- `_select_unassigned_variable_mrv`: first unassigned variable of
minimal current domain size. -/
def select_unassigned_variable_mrv (vars : List Course)
    (assign : List (Nat × CSPValue)) (d : Nat → List CSPValue) : Option Nat :=
  match (List.range vars.length).filter (fun i => assign.all (fun p => p.1 ≠ i)) with
  | [] => none
  | i :: is => some (argminFirst (fun j => (d j).length) i is)

/-- The elimination count of `_order_domain_values_lcv` for one candidate
value: over every other unassigned variable, count the domain values that
would make the extended assignment inconsistent. -/
def count_eliminated_values (vars : List Course) (assign : List (Nat × CSPValue))
    (d : Nat → List CSPValue) (var : Nat) (v : CSPValue) : Nat :=
  ((List.range vars.length).filter
    (fun j => j ≠ var && assign.all (fun p => p.1 ≠ j))).foldl
    (fun acc j => acc + (d j).countP
      (fun w => !is_consistent vars (assign ++ [(var, v), (j, w)]))) 0

/-- `_order_domain_values_lcv`: stable ascending sort by elimination
count. -/
def order_domain_values_lcv (vars : List Course) (assign : List (Nat × CSPValue))
    (d : Nat → List CSPValue) (var : Nat) : List CSPValue :=
  stableSortBy (fun a b => count_eliminated_values vars assign d var a
    ≤ count_eliminated_values vars assign d var b) (d var)

/-- The variables pruned by `_forward_check` after `assign'` (which already
contains the new assignment): every variable not yet assigned. -/
def fcAffected (vars : List Course) (assign' : List (Nat × CSPValue)) (i : Nat) :
    Bool :=
  i < vars.length && assign'.all (fun p => p.1 ≠ i)

/-- Domain pruning of `_forward_check`: drop the values conflicting with
the newly assigned one. -/
def fcFilter (v : CSPValue) (dom : List CSPValue) : List CSPValue :=
  dom.filter (fun w => !valuesConflict v w)

/-- The pruned domain state after `_forward_check`. -/
def forward_check (vars : List Course) (v : CSPValue)
    (assign' : List (Nat × CSPValue)) (d : Nat → List CSPValue) :
    Nat → List CSPValue := fun i =>
  if fcAffected vars assign' i then fcFilter v (d i) else d i

/-- `_restore_domains`: put back the saved domains of the affected
variables (the undo log records exactly those). -/
def restore_domains (pred : Nat → Bool) (saved current : Nat → List CSPValue) :
    Nat → List CSPValue := fun i =>
  if pred i then saved i else current i

/-- The `for value in domain_values` loop of `_backtrack`, parameterised by
the recursive call `bt`: try each value in order; on a consistent
extension, forward-check, recurse, and either return the found solution
(with the domains as the recursion left them) or restore the domains and
continue. -/
def tryValues
    (bt : List (Nat × CSPValue) → (Nat → List CSPValue) →
      Option (List (Nat × CSPValue)) × (Nat → List CSPValue))
    (vars : List Course) (var : Nat) :
    List CSPValue → List (Nat × CSPValue) → (Nat → List CSPValue) →
    Option (List (Nat × CSPValue)) × (Nat → List CSPValue)
  | [], _, d => (none, d)
  | v :: vs, assign, d =>
    if is_consistent vars (assign ++ [(var, v)]) then
      match bt (assign ++ [(var, v)])
          (forward_check vars v (assign ++ [(var, v)]) d) with
      | (some a, d2) => (some a, d2)
      | (none, d2) => tryValues bt vars var vs assign
          (restore_domains (fcAffected vars (assign ++ [(var, v)])) d d2)
    else tryValues bt vars var vs assign d

/-- `CSPSolver._backtrack` (with `use_heuristics=True`): fuel-indexed
recursion; fuel exhaustion models the wall-clock deadline's bare
`return None`. -/
def backtrack (vars : List Course) :
    Nat → List (Nat × CSPValue) → (Nat → List CSPValue) →
    Option (List (Nat × CSPValue)) × (Nat → List CSPValue)
  | 0, _, d => (none, d)
  | fuel + 1, assign, d =>
    if assign.length = vars.length then
      (if is_consistent vars assign then some assign else none, d)
    else
      match select_unassigned_variable_mrv vars assign d with
      | none => (none, d)
      | some var =>
        tryValues (fun a dd => backtrack vars fuel a dd) vars var
          (order_domain_values_lcv vars assign d var) assign d

/-- `CSPSolver._assignment_to_schedule`. -/
def assignment_to_schedule (vars : List Course)
    (assign : List (Nat × CSPValue)) : Schedule :=
  (assign.foldl (fun sched p =>
    (sched.add_entry ⟨varCourse vars p.1, p.2.2.2, p.2.2.1, p.2.1⟩).1)
    Schedule.empty).calculate_optimization_score

/-- `CSPSolver.solve` (heuristics on, deadline never reached): returns the
schedule option together with the final domain state the search left
behind. -/
def CSPSolver.solve (p : ProblemData) :
    Option Schedule × (Nat → List CSPValue) :=
  match backtrack (cspVariables p.courses)
      ((cspVariables p.courses).length + 1) []
      (initial_domains p (cspVariables p.courses)) with
  | (some a, d) => (some (assignment_to_schedule (cspVariables p.courses) a), d)
  | (none, d) => (none, d)

/-! ## Definitions used by the statements of the theorems -/

/-- The unary entry constraints of the specification: room compatibility,
faculty availability, and slot duration at least the course duration. -/
def entryUnaryOK (e : ScheduleEntry) : Bool :=
  e.faculty.is_available e.timeSlot
  && e.course.is_compatible_with_room e.classroom
  && e.course.duration ≤ e.timeSlot.duration

/-- The specification's pairwise `conflicts` predicate as the claims state
it: overlapping slots and shared faculty, classroom, or course. -/
def specConflicts (e1 e2 : ScheduleEntry) : Bool :=
  e1.timeSlot.overlaps_with e2.timeSlot
  && (e1.faculty.id = e2.faculty.id || e1.classroom.id = e2.classroom.id
      || e1.course.id = e2.course.id)

/-- The room-utilisation rule exactly as the claim words it: 20 inside the
band `0.7 ≤ u ≤ 1.0`, `10·u` in every other case. -/
def claimRoomUtilTerm (u : Score) : Score :=
  if (Score.ratio 7 10).ble u && u.ble 1 then 20 else (10 : Score) * u

/-- The greedy per-assignment score as the claim describes it (room term
`claimRoomUtilTerm`, everything else as in the source). -/
def claimGreedyAssignmentScore (c : Course) (f : Faculty) (r : Classroom)
    (t : TimeSlot) : Score :=
  f.get_preference_score t * 10
  + claimRoomUtilTerm (Score.ratio c.enrolledStudents r.capacity)
  + (if 9 ≤ t.startHour ∧ t.startHour ≤ 11 then 5
     else if 14 ≤ t.startHour ∧ t.startHour ≤ 16 then 3 else 0)
  + (if c.courseType = CourseType.lab ∧ r.roomType = "Lab" then 15 else 0)

/-- A sequence of `add_entry` calls (how every solver and the claims'
"from then on" quantify over a schedule's later life). -/
def addEntries (s : Schedule) (es : List ScheduleEntry) : Schedule :=
  es.foldl (fun s e => (s.add_entry e).1) s

/-- No pair of entries of the list conflicts under the predicate
`add_entry` actually checks (the later entry tested against the earlier
one, as at insertion time). -/
def entriesPairwiseConflictFree : List ScheduleEntry → Bool
  | [] => true
  | e :: es => es.all (fun e2 => !GraphBasedOptimizer.entries_conflict e2 e)
      && entriesPairwiseConflictFree es

/-- The feasibility guard of `_find_better_assignment` for one candidate
`(slot, room, faculty)`: available faculty, compatible room, no conflict
with the schedule being rebuilt. -/
def optFeasible (e : ScheduleEntry) (sched : Schedule)
    (cand : TimeSlot × Classroom × Faculty) : Bool :=
  cand.2.2.is_available cand.1
  && e.course.is_compatible_with_room cand.2.1
  && (sched.check_conflicts ⟨e.course, cand.2.2, cand.2.1, cand.1⟩).isEmpty

/-! ## Concrete instances used by counterexamples and witnesses -/

/-- Monday 09:00-10:30. -/
def exSlot1 : TimeSlot := ⟨"t1", .monday, 540, 630, 90⟩

/-- Monday 10:30-12:00. -/
def exSlot2 : TimeSlot := ⟨"t2", .monday, 630, 720, 90⟩

/-- All-Monday availability window. -/
def exMonday : TimeSlot := ⟨"mon", .monday, 0, 1440, 1440⟩

def exFac1 : Faculty := ⟨"f1", "Fone", "CS", [exMonday], [], []⟩

def exCourse1 : Course := ⟨"c1", "CA", "CS101", "CS", .lecture, 10, 90, 1, [], "f1"⟩

def exCourse2 : Course := ⟨"c2", "CB", "CS102", "CS", .lecture, 10, 90, 1, [], "f1"⟩

def exRoom1 : Classroom := ⟨"r1", "R1", 30, "Regular", []⟩

/-- Two one-session courses of one faculty, one room, two disjoint slots:
the CSP solves it, and forward checking prunes the second variable's
domain on the successful branch. -/
def exP8 : ProblemData := ⟨[exCourse1, exCourse2], [exFac1], [exRoom1], [exSlot1, exSlot2]⟩

-- C6 instance A: an equal-scoring replacement decreases the score.
def exSlotA : TimeSlot := ⟨"sA", .monday, 1020, 1110, 90⟩

def exFacA : Faculty := ⟨"fA", "FA", "CS", [exMonday], [exSlotA], []⟩

def exCourseA : Course := ⟨"cA", "CA", "CS201", "CS", .lecture, 20, 90, 1, [], "fA"⟩

def exRoom1A : Classroom := ⟨"r1A", "R1A", 22, "Regular", []⟩

def exRoom2A : Classroom := ⟨"r2A", "R2A", 28, "Regular", []⟩

def exPA : ProblemData := ⟨[exCourseA], [exFacA], [exRoom2A, exRoom1A], [exSlotA]⟩

def exEntryA : ScheduleEntry := ⟨exCourseA, exFacA, exRoom1A, exSlotA⟩

def exSA : Schedule := ((Schedule.empty.add_entry exEntryA).1).calculate_optimization_score

-- C6 instance B: validity is lost by the rebuild.
def exSlotB : TimeSlot := ⟨"sB", .monday, 540, 630, 90⟩

def exFacB : Faculty := ⟨"fB", "FB", "EE", [exMonday], [], []⟩

def exCourseB1 : Course := ⟨"cB1", "CB1", "EE101", "EE", .lecture, 10, 90, 1, ["projector"], "fB"⟩

def exCourseB2 : Course := ⟨"cB2", "CB2", "EE102", "EE", .lecture, 10, 90, 1, ["speaker"], "fB"⟩

def exRoomB1 : Classroom := ⟨"rB1", "RB1", 30, "Regular", ["projector"]⟩

def exRoomB2 : Classroom := ⟨"rB2", "RB2", 30, "Regular", ["speaker"]⟩

def exPB : ProblemData := ⟨[exCourseB1, exCourseB2], [exFacB], [exRoomB1, exRoomB2], [exSlotB]⟩

def exSB : Schedule :=
  ⟨[⟨exCourseB1, exFacB, exRoomB1, exSlotB⟩, ⟨exCourseB2, exFacB, exRoomB2, exSlotB⟩], [], 0⟩

-- C2 instance: the optimiser moves a 90-minute course into a 60-minute slot.
def exSlotL : TimeSlot := ⟨"sL", .monday, 480, 570, 90⟩

def exSlotS : TimeSlot := ⟨"sS", .monday, 600, 660, 60⟩

def exFacD : Faculty := ⟨"fD", "FD", "ME", [exMonday], [], []⟩

def exCourseD : Course := ⟨"cD", "CD", "ME101", "ME", .lecture, 10, 90, 1, [], "fD"⟩

def exRoomD : Classroom := ⟨"rD", "RD", 30, "Regular", []⟩

def exPD : ProblemData := ⟨[exCourseD], [exFacD], [exRoomD], [exSlotL, exSlotS]⟩

def exSD : Schedule :=
  ((Schedule.empty.add_entry ⟨exCourseD, exFacD, exRoomD, exSlotL⟩).1).calculate_optimization_score

-- C4/C3 instance: a free-period move that still conflicts with the
-- unavailability window.
def exSlotE : TimeSlot := ⟨"tsE", .monday, 540, 600, 60⟩

def exFacE : Faculty := ⟨"fE", "FE", "ME", [exMonday], [], []⟩

def exCourseE : Course := ⟨"cE", "CE", "ME201", "ME", .lecture, 10, 60, 1, [], "fE"⟩

def exRoomE : Classroom := ⟨"rE", "RE", 30, "Regular", []⟩

def exPE : ProblemData := ⟨[exCourseE], [exFacE], [exRoomE], [exSlotE]⟩

def exEntryE : ScheduleEntry := ⟨exCourseE, exFacE, exRoomE, exSlotE⟩

def exSchedE : Schedule := ⟨[exEntryE], [], 0⟩

/-- 09:00-12:00 unavailability of faculty `fE` (on today). -/
def exUE : FacultyUnavailability := ⟨"fE", 540, 720, 1⟩

-- C5/C8 instance: one 90-minute course, only a 60-minute slot.
def exSlotF : TimeSlot := ⟨"sF", .monday, 540, 600, 60⟩

def exFacF : Faculty := ⟨"fF", "FF", "CH", [exMonday], [], []⟩

def exCourseF : Course := ⟨"cF", "CF", "CH101", "CH", .lecture, 10, 90, 1, [], "fF"⟩

def exRoomF : Classroom := ⟨"rF", "RF", 30, "Regular", []⟩

def exPF : ProblemData := ⟨[exCourseF], [exFacF], [exRoomF], [exSlotF]⟩

-- C1/C10 instance: same-course overlap with distinct faculty and rooms.
def exSlotG1 : TimeSlot := ⟨"sG1", .monday, 540, 630, 90⟩

def exSlotG2 : TimeSlot := ⟨"sG2", .monday, 560, 650, 90⟩

def exFacG1 : Faculty := ⟨"fG1", "FG1", "CS", [exMonday], [], []⟩

def exFacG2 : Faculty := ⟨"fG2", "FG2", "CS", [exMonday], [], []⟩

def exCourseG : Course := ⟨"cG", "CG", "CS301", "CS", .lecture, 10, 90, 2, [], ""⟩

def exRoomG1 : Classroom := ⟨"rG1", "RG1", 30, "Regular", []⟩

def exRoomG2 : Classroom := ⟨"rG2", "RG2", 30, "Regular", []⟩

def exSchedG : Schedule := (Schedule.empty.add_entry ⟨exCourseG, exFacG1, exRoomG1, exSlotG1⟩).1

def exEntryG : ScheduleEntry := ⟨exCourseG, exFacG2, exRoomG2, exSlotG2⟩

-- C10 instance: a genuinely rejected insertion (same faculty, overlap).
def exEntryH : ScheduleEntry := ⟨exCourseG, exFacG1, exRoomG2, exSlotG2⟩

-- C7 instance: utilisation above 1.
def exSlotU : TimeSlot := ⟨"sU", .monday, 480, 570, 90⟩

def exFacU : Faculty := ⟨"fU", "FU", "PH", [exMonday], [], []⟩

def exCourseU : Course := ⟨"cU", "CU", "PH101", "PH", .lecture, 30, 90, 1, [], "fU"⟩

def exRoomU : Classroom := ⟨"rU", "RU", 20, "Regular", []⟩

/-! ## Helper lemmas -/

lemma score_ofNat_num (n : Nat) : (OfNat.ofNat n : Score).num = (n : Int) := rfl

lemma score_ofNat_den (n : Nat) : (OfNat.ofNat n : Score).den = 1 := rfl

lemma score_one_num : Score.num 1 = 1 := rfl

lemma score_one_den : Score.den 1 = 1 := rfl

lemma score_num0 : (0 : Score).num = 0 := rfl

lemma score_den0 : (0 : Score).den = 1 := rfl

lemma score_num3 : (3 : Score).num = 3 := rfl

lemma score_den3 : (3 : Score).den = 1 := rfl

lemma score_num5 : (5 : Score).num = 5 := rfl

lemma score_den5 : (5 : Score).den = 1 := rfl

lemma score_num10 : (10 : Score).num = 10 := rfl

lemma score_den10 : (10 : Score).den = 1 := rfl

lemma score_num15 : (15 : Score).num = 15 := rfl

lemma score_den15 : (15 : Score).den = 1 := rfl

lemma score_num20 : (20 : Score).num = 20 := rfl

lemma score_den20 : (20 : Score).den = 1 := rfl

lemma score_num100 : (100 : Score).num = 100 := rfl

lemma score_den100 : (100 : Score).den = 1 := rfl

lemma score_add_num (a b : Score) :
    (a + b).num = a.num * (b.den : Int) + b.num * (a.den : Int) := rfl

lemma score_add_den (a b : Score) : (a + b).den = a.den * b.den := rfl

lemma score_mul_num (a b : Score) : (a * b).num = a.num * b.num := rfl

lemma score_mul_den (a b : Score) : (a * b).den = a.den * b.den := rfl

lemma score_sub_num (a b : Score) :
    (a - b).num = a.num * (b.den : Int) - b.num * (a.den : Int) := rfl

lemma score_sub_den (a b : Score) : (a - b).den = a.den * b.den := rfl

lemma check_conflicts_entry_eq (e e2 : ScheduleEntry) (m1 m2 : List String) :
    (if e.timeSlot.overlaps_with e2.timeSlot then
      (if e.faculty.id = e2.faculty.id then m1 else []) ++
      (if e.classroom.id = e2.classroom.id then m2 else [])
    else []) = [] ↔
    (m1 = [] ∨ ¬(e.timeSlot.overlaps_with e2.timeSlot = true ∧ e.faculty.id = e2.faculty.id))
    ∧ (m2 = [] ∨ ¬(e.timeSlot.overlaps_with e2.timeSlot = true ∧ e.classroom.id = e2.classroom.id)) := by
  split_ifs with h1 h2 h3 <;> simp_all

lemma check_conflicts_eq_nil_iff (s : Schedule) (e : ScheduleEntry) :
    s.check_conflicts e = [] ↔
    ∀ e2 ∈ s.entries, GraphBasedOptimizer.entries_conflict e e2 = false := by
  unfold Schedule.check_conflicts GraphBasedOptimizer.entries_conflict
  rw [List.flatten_eq_nil_iff]
  constructor
  · intro h e2 he2
    have h2 := h _ (List.mem_map_of_mem _ he2)
    simp only [Bool.and_eq_false_iff, Bool.or_eq_false_iff]
    by_cases hov : e.timeSlot.overlaps_with e2.timeSlot = true
    · right
      constructor
      · by_cases hf : e.faculty.id = e2.faculty.id
        · exfalso
          simp [hov, hf] at h2
        · simp [hf]
      · by_cases hr : e.classroom.id = e2.classroom.id
        · exfalso
          simp [hov, hr] at h2
        · simp [hr]
    · left
      simp at hov
      exact hov
  · intro h l hl
    obtain ⟨e2, he2, rfl⟩ := List.mem_map.mp hl
    have h2 := h e2 he2
    simp only [Bool.and_eq_false_iff, Bool.or_eq_false_iff] at h2
    rcases h2 with hov | ⟨hf, hr⟩
    · simp [hov]
    · split_ifs <;> simp_all

lemma add_entry_snd (s : Schedule) (e : ScheduleEntry) :
    (s.add_entry e).2 = (s.check_conflicts e).isEmpty := by
  by_cases h : (s.check_conflicts e).isEmpty <;> simp [Schedule.add_entry, h]

lemma add_entry_fst_of_clear (s : Schedule) (e : ScheduleEntry)
    (h : (s.check_conflicts e).isEmpty = true) :
    (s.add_entry e).1 = { s with entries := s.entries ++ [e] } := by
  unfold Schedule.add_entry
  simp [h]

lemma add_entry_fst_of_conflict (s : Schedule) (e : ScheduleEntry)
    (h : (s.check_conflicts e).isEmpty = false) :
    (s.add_entry e).1 = { s with conflicts := s.conflicts ++ s.check_conflicts e } := by
  unfold Schedule.add_entry
  simp [h]

lemma add_entry_entries_ok (s : Schedule) (e : ScheduleEntry) (P : ScheduleEntry → Bool)
    (hs : s.entries.all P = true) (he : P e = true) :
    (s.add_entry e).1.entries.all P = true := by
  by_cases h : (s.check_conflicts e).isEmpty <;> simp_all [Schedule.add_entry, h]

lemma calculate_optimization_score_entries (s : Schedule) :
    s.calculate_optimization_score.entries = s.entries := by
  unfold Schedule.calculate_optimization_score
  split <;> rfl

lemma calculate_optimization_score_conflicts (s : Schedule) :
    s.calculate_optimization_score.conflicts = s.conflicts := by
  unfold Schedule.calculate_optimization_score
  split <;> rfl

/-! ## C9 — strategy selection thresholds -/

/-- C9: strategy selection is a function of the product of the effective
counts (selected-subset counts override when positive): product ≤ 100
gives Greedy, 100 < product ≤ 1000 gives Hybrid, and otherwise
CspBacktracking. -/
theorem c9_theorem (cc fc rc scc sfc : Nat) :
    ((choose_optimal_algorithm cc fc rc scc sfc = SolverType.greedy ↔
      effectiveComplexity cc fc rc scc sfc ≤ 100)
    ∧ (choose_optimal_algorithm cc fc rc scc sfc = SolverType.hybrid ↔
      (100 < effectiveComplexity cc fc rc scc sfc
        ∧ effectiveComplexity cc fc rc scc sfc ≤ 1000))
    ∧ (choose_optimal_algorithm cc fc rc scc sfc = SolverType.cspBacktracking ↔
      1000 < effectiveComplexity cc fc rc scc sfc)) := by
  unfold choose_optimal_algorithm
  generalize effectiveComplexity cc fc rc scc sfc = n
  split_ifs with h1 h2 <;> (refine ⟨?_, ?_, ?_⟩ <;> (simp_all; try omega))

/-- Witness for C9 at a concrete instance (5·4·5 = 100 → Greedy). -/
theorem c9_witness : choose_optimal_algorithm 5 4 5 0 0 = SolverType.greedy :=
  (c9_theorem 5 4 5 0 0).1.mpr (by decide)

/-! ## C7 — the room-utilisation term of the per-assignment score -/

/-- C7 counterexample: at `u = 30/20 = 1.5 > 1` the greedy scorer adds
nothing for room utilisation (total 5), while the claimed rule `10·u`
would give 20; the claim is false for
`GreedySolver._calculate_assignment_score`. -/
theorem c7_counterexample :
    Score.blt 1 (Score.ratio exCourseU.enrolledStudents exRoomU.capacity) = true
    ∧ Score.eqv (GreedySolver.calculate_assignment_score exCourseU exFacU exRoomU exSlotU) 5 = true
    ∧ Score.eqv (claimGreedyAssignmentScore exCourseU exFacU exRoomU exSlotU) 20 = true
    ∧ Score.eqv (GreedySolver.calculate_assignment_score exCourseU exFacU exRoomU exSlotU)
        (claimGreedyAssignmentScore exCourseU exFacU exRoomU exSlotU) = false := by
  refine ⟨by decide, by decide, by decide, by decide⟩

/-- C7 amended: the optimiser's scorer follows the claimed rule exactly
(20 in the band, `10·u` in every other case, including `u > 1`); the
greedy scorer follows it only below the band — above the band (`u > 1`)
its room term is 0, so its score equals the claimed formula with the room
term dropped. -/
theorem c7_amended (c : Course) (f : Faculty) (r : Classroom) (t : TimeSlot) :
    (GraphBasedOptimizer.calculate_assignment_score c f r t
      = f.get_preference_score t * 10
        + claimRoomUtilTerm (Score.ratio c.enrolledStudents r.capacity)
        + (if 9 ≤ t.startHour ∧ t.startHour ≤ 16 then 5 else 0)
        + (if c.courseType = CourseType.lab ∧ r.roomType = "Lab" then 15 else 0))
    ∧ (Score.blt 1 (Score.ratio c.enrolledStudents r.capacity) = true →
      GreedySolver.calculate_assignment_score c f r t
        = f.get_preference_score t * 10
          + (0 : Score)
          + (if 9 ≤ t.startHour ∧ t.startHour ≤ 11 then 5
             else if 14 ≤ t.startHour ∧ t.startHour ≤ 16 then 3 else 0)
          + (if c.courseType = CourseType.lab ∧ r.roomType = "Lab" then 15 else 0)) := by
  constructor
  · rfl
  · intro hu
    have hcap : ((r.capacity : Nat) : Int) < ((c.enrolledStudents : Nat) : Int) := by
      simp only [Score.blt, Score.ratio, score_ofNat_num, score_ofNat_den,
        score_one_num, score_one_den, one_mul, mul_one, decide_eq_true_eq] at hu
      omega
    have hband : ((Score.ratio 7 10).ble (Score.ratio c.enrolledStudents r.capacity)
        && (Score.ratio c.enrolledStudents r.capacity).ble 1) = false := by
      cases hb : ((Score.ratio 7 10).ble (Score.ratio c.enrolledStudents r.capacity)
        && (Score.ratio c.enrolledStudents r.capacity).ble 1) with
      | false => rfl
      | true =>
        exfalso
        simp only [Bool.and_eq_true, Score.ble, Score.ratio, score_ofNat_num,
          score_ofNat_den, score_one_num, score_one_den, one_mul, mul_one,
          decide_eq_true_eq] at hb
        omega
    have hlow : (Score.ratio c.enrolledStudents r.capacity).blt (Score.ratio 7 10) = false := by
      cases hl : (Score.ratio c.enrolledStudents r.capacity).blt (Score.ratio 7 10) with
      | false => rfl
      | true =>
        exfalso
        simp only [Score.blt, Score.ratio, score_ofNat_num, score_ofNat_den,
          one_mul, mul_one, decide_eq_true_eq] at hl
        omega
    unfold GreedySolver.calculate_assignment_score greedyRoomUtilTerm
    rw [hband, hlow]
    simp

/-- Witness for C7's amended theorem at the `u > 1` instance. -/
theorem c7_witness :
    GreedySolver.calculate_assignment_score exCourseU exFacU exRoomU exSlotU
      = exFacU.get_preference_score exSlotU * 10
        + (0 : Score)
        + (if 9 ≤ exSlotU.startHour ∧ exSlotU.startHour ≤ 11 then 5
           else if 14 ≤ exSlotU.startHour ∧ exSlotU.startHour ≤ 16 then 3 else 0)
        + (if exCourseU.courseType = CourseType.lab ∧ exRoomU.roomType = "Lab" then 15 else 0) :=
  (c7_amended exCourseU exFacU exRoomU exSlotU).2 (by decide)

/-! ## C1 — what `add_entry` actually rejects -/

/-- C1 counterexample: a new entry that overlaps an existing entry of the
same course (different faculty, different room) conflicts under the
claim's predicate, yet `add_entry` accepts it and appends — the course
disjunct is not checked. -/
theorem c1_counterexample :
    (exSchedG.entries.any (fun e2 => specConflicts exEntryG e2) = true)
    ∧ ((exSchedG.add_entry exEntryG).2 = true)
    ∧ ((exSchedG.add_entry exEntryG).1.entries = exSchedG.entries ++ [exEntryG]) :=
  ⟨by decide, by decide, by decide⟩

/-- C1 amended: `add_entry` fails (and leaves the entries unchanged) iff
some existing entry overlaps the new one and shares its faculty or its
classroom — the same-course disjunct of the claim is absent; otherwise it
appends and succeeds. -/
theorem c1_amended (s : Schedule) (e : ScheduleEntry) :
    ((s.add_entry e).2 = false ↔
      s.entries.any (fun e2 => GraphBasedOptimizer.entries_conflict e e2) = true)
    ∧ ((s.add_entry e).2 = false → (s.add_entry e).1.entries = s.entries)
    ∧ ((s.add_entry e).2 = true → (s.add_entry e).1.entries = s.entries ++ [e]) := by
  refine ⟨?_, ?_, ?_⟩
  · rw [add_entry_snd]
    constructor
    · intro h
      by_contra hany
      have hall : ∀ e2 ∈ s.entries, GraphBasedOptimizer.entries_conflict e e2 = false := by
        intro e2 he2
        cases hval : GraphBasedOptimizer.entries_conflict e e2 with
        | false => rfl
        | true => exact absurd (List.any_eq_true.mpr ⟨e2, he2, hval⟩) hany
      have hnil : s.check_conflicts e = [] := (check_conflicts_eq_nil_iff s e).mpr hall
      rw [hnil] at h
      simp at h
    · intro h
      obtain ⟨e2, he2, hval⟩ := List.any_eq_true.mp h
      cases hc : (s.check_conflicts e).isEmpty with
      | false => rfl
      | true =>
        exfalso
        have hnil : s.check_conflicts e = [] := by
          cases hcc : s.check_conflicts e with
          | nil => rfl
          | cons a l => rw [hcc] at hc; simp at hc
        have := (check_conflicts_eq_nil_iff s e).mp hnil e2 he2
        rw [hval] at this
        simp at this
  · intro h
    rw [add_entry_snd] at h
    rw [add_entry_fst_of_conflict s e h]
  · intro h
    rw [add_entry_snd] at h
    rw [add_entry_fst_of_clear s e h]

/-- Witness for C1's amended theorem: a successful insertion appends. -/
theorem c1_witness :
    (exSchedG.add_entry exEntryH).2 = false
    ∧ (exSchedG.add_entry exEntryH).1.entries = exSchedG.entries :=
  ⟨by decide, (c1_amended exSchedG exEntryH).2.1 (by decide)⟩

/-! ## C10 — rejected insertions poison `is_valid` -/

lemma add_entry_conflicts_ne (s : Schedule) (e : ScheduleEntry)
    (h : s.conflicts ≠ []) : (s.add_entry e).1.conflicts ≠ [] := by
  cases hc : (s.check_conflicts e).isEmpty with
  | true => rw [add_entry_fst_of_clear s e hc]; exact h
  | false =>
    rw [add_entry_fst_of_conflict s e hc]
    simp only []
    intro hx
    exact h (List.append_eq_nil.mp hx).1

lemma addEntries_conflicts_ne (es : List ScheduleEntry) :
    ∀ (s : Schedule), s.conflicts ≠ [] → (addEntries s es).conflicts ≠ [] := by
  induction es with
  | nil => intro s h; exact h
  | cons e es ih =>
    intro s h
    exact ih _ (add_entry_conflicts_ne s e h)

lemma pairwiseFree_append (x : ScheduleEntry) :
    ∀ (l : List ScheduleEntry),
    entriesPairwiseConflictFree l = true →
    l.all (fun e2 => !GraphBasedOptimizer.entries_conflict x e2) = true →
    entriesPairwiseConflictFree (l ++ [x]) = true := by
  intro l
  induction l with
  | nil =>
    intro _ _
    simp [entriesPairwiseConflictFree]
  | cons a l ih =>
    intro hl hx
    rw [List.cons_append]
    simp only [entriesPairwiseConflictFree, Bool.and_eq_true, List.all_cons,
      List.all_append, List.all_nil, Bool.and_true] at hl hx ⊢
    exact ⟨⟨hl.1, hx.1⟩, ih hl.2 hx.2⟩

lemma addEntries_pairwiseFree (es : List ScheduleEntry) :
    ∀ (s : Schedule), entriesPairwiseConflictFree s.entries = true →
    entriesPairwiseConflictFree (addEntries s es).entries = true := by
  induction es with
  | nil => intro s h; exact h
  | cons e es ih =>
    intro s h
    apply ih
    show entriesPairwiseConflictFree ((s.add_entry e).1).entries = true
    cases hc : (s.check_conflicts e).isEmpty with
    | false => rw [add_entry_fst_of_conflict s e hc]; exact h
    | true =>
      rw [add_entry_fst_of_clear s e hc]
      apply pairwiseFree_append e s.entries h
      rw [List.all_eq_true]
      intro e2 he2
      have hnil : s.check_conflicts e = [] := by
        cases hcc : s.check_conflicts e with
        | nil => rfl
        | cons a l => rw [hcc] at hc; simp at hc
      have := (check_conflicts_eq_nil_iff s e).mp hnil e2 he2
      simp [this]

/-- C10: a rejected `add_entry` appends the detected conflict strings and
leaves the entries unchanged, so the schedule reports `is_valid = false`
from then on under any further `add_entry` calls; a successful insertion
leaves the conflicts unchanged; and a schedule built from empty by
`add_entry` alone never holds a conflicting pair of entries. -/
theorem c10_theorem (s : Schedule) (e : ScheduleEntry) :
    ((s.add_entry e).2 = false →
      (s.add_entry e).1.conflicts = s.conflicts ++ s.check_conflicts e
      ∧ s.check_conflicts e ≠ []
      ∧ (s.add_entry e).1.entries = s.entries
      ∧ ∀ es, (addEntries (s.add_entry e).1 es).is_valid = false)
    ∧ ((s.add_entry e).2 = true → (s.add_entry e).1.conflicts = s.conflicts)
    ∧ (∀ es, entriesPairwiseConflictFree (addEntries Schedule.empty es).entries = true) := by
  refine ⟨?_, ?_, ?_⟩
  · intro h
    rw [add_entry_snd] at h
    have hne : s.check_conflicts e ≠ [] := by
      intro hnil
      rw [hnil] at h
      simp at h
    refine ⟨by rw [add_entry_fst_of_conflict s e h], hne,
      by rw [add_entry_fst_of_conflict s e h], ?_⟩
    intro es
    have hconf : (s.add_entry e).1.conflicts ≠ [] := by
      rw [add_entry_fst_of_conflict s e h]
      simp only []
      intro hx
      exact hne (List.append_eq_nil.mp hx).2
    have := addEntries_conflicts_ne es _ hconf
    unfold Schedule.is_valid
    cases hcc : (addEntries (s.add_entry e).1 es).conflicts with
    | nil => exact absurd hcc this
    | cons a l => rfl
  · intro h
    rw [add_entry_snd] at h
    rw [add_entry_fst_of_clear s e h]
  · intro es
    exact addEntries_pairwiseFree es Schedule.empty (by rfl)

/-- Witness for C10 at a rejected insertion (same faculty, overlapping
slots): the conflict strings are recorded, the entries are untouched, and
the schedule is invalid from then on. -/
theorem c10_witness :
    (exSchedG.add_entry exEntryH).1.conflicts
      = exSchedG.conflicts ++ exSchedG.check_conflicts exEntryH
    ∧ (exSchedG.add_entry exEntryH).1.entries = exSchedG.entries
    ∧ (addEntries (exSchedG.add_entry exEntryH).1 [exEntryG]).is_valid = false := by
  have h := (c10_theorem exSchedG exEntryH).1 (by decide)
  exact ⟨h.1, h.2.2.1, h.2.2.2 [exEntryG]⟩

/-! ## C5 — partial greedy schedules still report valid -/

/-- C5 counterexample: the greedy solver skips the only session of a
90-minute course when every slot is 60 minutes, returning an empty
schedule whose `is_valid` is `true`, not `false`. -/
theorem c5_counterexample :
    (GreedySolver.solve exPF).entries.length < (courseSessions exPF.courses).length
    ∧ (GreedySolver.solve exPF).is_valid = true :=
  ⟨by decide, by decide⟩

lemma foldl_preserve {α β : Type} (P : β → Prop) (step : β → α → β)
    (hstep : ∀ b a, P b → P (step b a)) :
    ∀ (l : List α) (acc : β), P acc → P (l.foldl step acc) := by
  intro l
  induction l with
  | nil => intro acc h; exact h
  | cons a l ih => intro acc h; exact ih _ (hstep _ _ h)

lemma insertStable_length {α : Type} (le : α → α → Bool) (x : α) :
    ∀ (l : List α), (insertStable le x l).length = l.length + 1 := by
  intro l
  induction l with
  | nil => rfl
  | cons a l ih =>
    unfold insertStable
    split
    · simp [ih]
    · simp

lemma stableSortBy_length {α : Type} (le : α → α → Bool) (l : List α) :
    (stableSortBy le l).length = l.length := by
  unfold stableSortBy
  suffices h : ∀ (l : List α) (acc : List α),
      (l.foldl (fun acc x => insertStable le x acc) acc).length = acc.length + l.length by
    simpa using h l []
  intro l
  induction l with
  | nil => intro acc; simp
  | cons a l ih =>
    intro acc
    rw [List.foldl_cons, ih, insertStable_length]
    simp only [List.length_cons]
    omega

/-- The tuple chosen by `GreedySolver._find_best_assignment` passed the
unary checks and the conflict check against the given schedule. -/
lemma greedyStep_preserves (course : Course) (sched : Schedule)
    (best : Score × Option (TimeSlot × Classroom × Faculty))
    (cand : TimeSlot × Classroom × Faculty)
    (hP : ∀ t r f, best.2 = some (t, r, f) →
      (f.is_available t && course.is_compatible_with_room r
        && course.duration ≤ t.duration) = true
      ∧ (sched.check_conflicts ⟨course, f, r, t⟩).isEmpty = true) :
    ∀ t r f, (greedyStep course sched best cand).2 = some (t, r, f) →
      (f.is_available t && course.is_compatible_with_room r
        && course.duration ≤ t.duration) = true
      ∧ (sched.check_conflicts ⟨course, f, r, t⟩).isEmpty = true := by
  intro t r f
  unfold greedyStep
  split_ifs with h1 h2 h3
  · intro heq
    simp only [Option.some.injEq] at heq
    rw [heq] at h1 h2
    exact ⟨h1, h2⟩
  · exact hP t r f
  · exact hP t r f
  · exact hP t r f

/-- The tuple chosen by `GreedySolver._find_best_assignment` passed the
unary checks and the conflict check against the given schedule. -/
lemma greedy_find_best_guards (p : ProblemData) (course : Course) (sched : Schedule)
    (t : TimeSlot) (r : Classroom) (f : Faculty)
    (h : GreedySolver.find_best_assignment p course sched = some (t, r, f)) :
    (f.is_available t && course.is_compatible_with_room r
      && course.duration ≤ t.duration) = true
    ∧ (sched.check_conflicts ⟨course, f, r, t⟩).isEmpty = true := by
  unfold GreedySolver.find_best_assignment at h
  have key := foldl_preserve
    (fun (acc : Score × Option (TimeSlot × Classroom × Faculty)) =>
      ∀ t r f, acc.2 = some (t, r, f) →
        (f.is_available t && course.is_compatible_with_room r
          && course.duration ≤ t.duration) = true
        ∧ (sched.check_conflicts ⟨course, f, r, t⟩).isEmpty = true)
    (greedyStep course sched)
    (fun b a hb => greedyStep_preserves course sched b a hb)
    (candidateTuples p.timeSlots p.classrooms (facultyCandidates p.faculty course))
    (⟨-1, 1⟩, none) (by intro t r f h2; exact absurd h2 (by simp))
  exact key t r f h

/-- The greedy construction loop never records a conflict and adds at most
one entry per session. -/
lemma greedy_fold_props (p : ProblemData) :
    ∀ (L : List (Course × Nat)) (s : Schedule),
    ((L.foldl (fun sched cs =>
      match GreedySolver.find_best_assignment p cs.1 sched with
      | some (t, r, f) => (sched.add_entry ⟨cs.1, f, r, t⟩).1
      | none => sched) s).conflicts = s.conflicts
    ∧ (L.foldl (fun sched cs =>
      match GreedySolver.find_best_assignment p cs.1 sched with
      | some (t, r, f) => (sched.add_entry ⟨cs.1, f, r, t⟩).1
      | none => sched) s).entries.length ≤ s.entries.length + L.length) := by
  intro L
  induction L with
  | nil => intro s; exact ⟨rfl, by simp⟩
  | cons c L ih =>
    intro s
    rw [List.foldl_cons]
    rcases hfb : GreedySolver.find_best_assignment p c.1 s with _ | ⟨t, r, f⟩
    · simp only [hfb]
      refine ⟨(ih s).1, le_trans (ih s).2 (by simp only [List.length_cons]; omega)⟩
    · simp only [hfb]
      have hg := greedy_find_best_guards p c.1 s t r f hfb
      have hconf : (s.add_entry ⟨c.1, f, r, t⟩).1.conflicts = s.conflicts := by
        rw [add_entry_fst_of_clear _ _ hg.2]
      have hlen : (s.add_entry ⟨c.1, f, r, t⟩).1.entries.length = s.entries.length + 1 := by
        rw [add_entry_fst_of_clear _ _ hg.2]
        simp
      have h2 := ih ((s.add_entry ⟨c.1, f, r, t⟩).1)
      refine ⟨by rw [h2.1, hconf], ?_⟩
      have h3 := h2.2
      rw [hlen] at h3
      simp only [List.length_cons]
      omega

/-- C5 amended: the greedy solver's schedule never has more entries than
there are sessions (strictly fewer when a session is skipped), and its
`is_valid` is always `true` — skipping records no conflict. -/
theorem c5_amended (p : ProblemData) :
    (GreedySolver.solve p).is_valid = true
    ∧ (GreedySolver.solve p).entries.length ≤ (courseSessions p.courses).length := by
  unfold GreedySolver.solve
  have h := greedy_fold_props p (stableSortBy greedySessionLE (courseSessions p.courses))
    Schedule.empty
  constructor
  · unfold Schedule.is_valid
    rw [calculate_optimization_score_conflicts, h.1]
    rfl
  · rw [calculate_optimization_score_entries]
    have h2 := h.2
    rw [stableSortBy_length] at h2
    have h0 : Schedule.empty.entries.length = 0 := rfl
    omega

/-- Witness for C5's amended theorem at the skip instance. -/
theorem c5_witness : (GreedySolver.solve exPF).is_valid = true :=
  (c5_amended exPF).1

/-! ## C4 — which reschedule options avoid the unavailability -/

/-- C4 counterexample: an affected entry is rescheduled to the
highest-scoring option (a free-period move scoring 110 ≥ 0), yet the
remaining entry of the unavailable faculty still overlaps the
unavailability window — free-period options are never checked against
`u`. -/
theorem c4_counterexample :
    (generate_reschedule_options exPE exSchedE exEntryE exUE ≠ [])
    ∧ ((generate_reschedule_options exPE exSchedE exEntryE exUE).all
        (fun o => Score.ble 0 (calculate_feasibility_score o)) = true)
    ∧ ((handle_single_unavailability exPE exSchedE exUE).entries.any
        (fun e => e.faculty.id = exUE.facultyId
          && exUE.conflicts_with_timeslot e.timeSlot) = true) :=
  ⟨by decide, by decide, by decide⟩

/-- C4 amended: options produced by the time-shift and time+room
generators never conflict with the unavailability being handled (their
slots are filtered against it); no such guarantee exists for free-period
or substitution options, so an entry of the unavailable faculty may keep
overlapping `u` after rescheduling. -/
theorem c4_amended (timeSlots : List TimeSlot) (classrooms : List Classroom)
    (schedule : Schedule) (entry : ScheduleEntry) (u : FacultyUnavailability) :
    ((try_time_shift_rescheduling timeSlots schedule entry u).all
      (fun o => !u.conflicts_with_timeslot o.newTimeSlot) = true)
    ∧ ((try_complex_rescheduling timeSlots classrooms schedule entry u).all
      (fun o => !u.conflicts_with_timeslot o.newTimeSlot) = true) := by
  constructor
  · rw [List.all_eq_true]
    intro o ho
    unfold try_time_shift_rescheduling at ho
    obtain ⟨t, ht, rfl⟩ := List.mem_map.mp ho
    obtain ⟨htmem, hcond⟩ := List.mem_filter.mp ht
    simp only [Bool.and_eq_true, Bool.not_eq_true', Bool.or_eq_false_iff] at hcond
    simp [RescheduleOption.make, hcond.1.1.2]
  · rw [List.all_eq_true]
    intro o ho
    unfold try_complex_rescheduling at ho
    rw [List.mem_flatten] at ho
    obtain ⟨l, hl, hol⟩ := ho
    obtain ⟨t, ht, rfl⟩ := List.mem_map.mp hl
    obtain ⟨r, hr, rfl⟩ := List.mem_map.mp hol
    obtain ⟨htmem, hcond⟩ := List.mem_filter.mp ht
    simp only [Bool.not_eq_true', Bool.or_eq_false_iff] at hcond
    simp [hcond.2]

/-- Witness for C4's amended theorem: a concrete time-shift option list on
the instance with a second, conflict-free slot. -/
theorem c4_witness :
    (try_time_shift_rescheduling [exSlot1, exSlot2] exSchedG exEntryG
        (⟨"fG2", 540, 600, 1⟩ : FacultyUnavailability)).all
      (fun o => !(⟨"fG2", 540, 600, 1⟩ : FacultyUnavailability).conflicts_with_timeslot
        o.newTimeSlot) = true :=
  (c4_amended [exSlot1, exSlot2] [] exSchedG exEntryG ⟨"fG2", 540, 600, 1⟩).1

/-! ## Further counterexamples evaluated on the embedding -/

/-- C2 counterexample: the optimiser's replacement search does not check
the duration bound: it moves a 90-minute course (placed validly) into a
higher-scoring 60-minute slot. -/
theorem c2_counterexample :
    exSD.entries.all entryUnaryOK = true
    ∧ (GraphBasedOptimizer.optimize_schedule exPD exSD).entries.any
        (fun e => decide (e.timeSlot.duration < e.course.duration)) = true :=
  ⟨by decide, by decide⟩

/-- C6 counterexample: (a) the optimiser replaces an entry by an
equal-scoring tuple in an earlier-listed room, and the recomputed
`optimization_score` drops from 61/11 to 32/7; (b) on a valid schedule
with two conflicting entries the rebuild records a conflict, so
`is_valid` is not preserved. -/
theorem c6_counterexample :
    (((GraphBasedOptimizer.optimize_schedule exPA exSA).optimizationScore).blt
        exSA.optimizationScore = true)
    ∧ ((GraphBasedOptimizer.optimize_schedule exPA exSA).entries
        = [⟨exCourseA, exFacA, exRoom2A, exSlotA⟩])
    ∧ (Score.eqv (GraphBasedOptimizer.calculate_assignment_score exCourseA exFacA exRoom2A exSlotA)
        (GraphBasedOptimizer.calculate_assignment_score exCourseA exFacA exRoom1A exSlotA) = true)
    ∧ (exSB.is_valid = true)
    ∧ ((GraphBasedOptimizer.optimize_schedule exPB exSB).is_valid = false) :=
  ⟨by decide, by decide, by decide, by decide, by decide⟩

/-- C8 counterexample: a solved instance returns with variable 1's domain
still pruned by forward checking — domains are not restored on the
success path. -/
theorem c8_counterexample :
    (CSPSolver.solve exP8).1.isSome = true
    ∧ (CSPSolver.solve exP8).2 1 ≠ initial_domains exP8 (cspVariables exP8.courses) 1 :=
  ⟨by decide, by decide⟩

/-! ## C3 — applying a generated reschedule option always succeeds -/

lemma mem_removeFirst {α : Type} [DecidableEq α] (x a : α) :
    ∀ (l : List α), a ∈ removeFirst x l → a ∈ l := by
  intro l
  induction l with
  | nil => intro h; exact h
  | cons y ys ih =>
    unfold removeFirst
    split_ifs with hy
    · intro h; exact List.mem_cons_of_mem y h
    · intro h
      rcases List.mem_cons.mp h with h | h
      · exact h ▸ List.mem_cons_self y ys
      · exact List.mem_cons_of_mem y (ih h)

lemma score_ble_refl (a : Score) : a.ble a = true := by
  unfold Score.ble
  simp

lemma score_ble_of_blt {a b : Score} (h : a.blt b = true) : a.ble b = true := by
  unfold Score.blt at h
  unfold Score.ble
  simp only [decide_eq_true_eq] at *
  omega

lemma score_ble_of_not_blt {a b : Score} (h : a.blt b = false) : b.ble a = true := by
  unfold Score.blt at h
  unfold Score.ble
  simp only [decide_eq_false_iff_not, decide_eq_true_eq] at *
  omega

lemma score_ble_trans_den1 {a b c : Score} (hab : a.ble b = true) (hbc : b.ble c = true)
    (ha : a.den = 1) (hb : b.den = 1) (hc : c.den = 1) : a.ble c = true := by
  unfold Score.ble at *
  rw [ha, hb] at hab
  rw [hb, hc] at hbc
  rw [ha, hc]
  simp only [decide_eq_true_eq, Nat.cast_one, mul_one] at *
  omega

/-- Every feasibility score is an integer (denominator 1). -/
lemma feasibility_score_den (o : RescheduleOption) :
    (calculate_feasibility_score o).den = 1 := by
  unfold calculate_feasibility_score
  generalize free_period_slots.contains o.newTimeSlot = bfp
  split_ifs <;> rfl

/-- Python's `max(key=...)`: the result is the initial element or a list
element, its key is at least the initial key and the key of every list
element (first maximum wins). -/
lemma argmaxFirst_spec {α : Type} (f : α → Score) (hden : ∀ x, (f x).den = 1) :
    ∀ (l : List α) (b : α),
    (argmaxFirst f b l = b ∨ argmaxFirst f b l ∈ l)
    ∧ ((f b).ble (f (argmaxFirst f b l)) = true)
    ∧ (∀ x ∈ l, (f x).ble (f (argmaxFirst f b l)) = true) := by
  intro l
  induction l with
  | nil =>
    intro b
    exact ⟨Or.inl rfl, score_ble_refl _, by simp⟩
  | cons x xs ih =>
    intro b
    cases hblt : (f b).blt (f x) with
    | true =>
      have hred : argmaxFirst f b (x :: xs) = argmaxFirst f x xs := by
        simp [argmaxFirst, hblt]
      obtain ⟨hmem, hble, hall⟩ := ih x
      rw [hred]
      refine ⟨?_, ?_, ?_⟩
      · rcases hmem with h | h
        · right
          rw [h]
          exact List.mem_cons_self x xs
        · exact Or.inr (List.mem_cons_of_mem x h)
      · exact score_ble_trans_den1 (score_ble_of_blt hblt) hble (hden b) (hden x) (hden _)
      · intro y hy
        rcases List.mem_cons.mp hy with h | h
        · exact h ▸ hble
        · exact hall y h
    | false =>
      have hred : argmaxFirst f b (x :: xs) = argmaxFirst f b xs := by
        simp [argmaxFirst, hblt]
      obtain ⟨hmem, hble, hall⟩ := ih b
      rw [hred]
      refine ⟨?_, hble, ?_⟩
      · rcases hmem with h | h
        · exact Or.inl h
        · exact Or.inr (List.mem_cons_of_mem x h)
      · intro y hy
        rcases List.mem_cons.mp hy with h | h
        · exact h ▸ score_ble_trans_den1 (score_ble_of_not_blt hblt) hble
            (hden x) (hden b) (hden _)
        · exact hall y h

/-- Every option produced by `_generate_reschedule_options` keeps the
affected entry as its original and was screened by
`_conflicts_with_schedule` with exactly the fields the replacement entry
will carry. -/
lemma generated_option_props (p : ProblemData) (schedule : Schedule)
    (entry : ScheduleEntry) (u : FacultyUnavailability) (o : RescheduleOption)
    (h : o ∈ generate_reschedule_options p schedule entry u) :
    o.originalEntry = entry
    ∧ conflicts_with_schedule schedule entry.course o.substituteFaculty
        o.newClassroom o.newTimeSlot = false := by
  unfold generate_reschedule_options at h
  rcases List.mem_append.mp h with h | h4
  · rcases List.mem_append.mp h with h | h3
    · rcases List.mem_append.mp h with h1 | h2
      · -- free period
        unfold try_free_period_rescheduling at h1
        obtain ⟨t, ht, rfl⟩ := List.mem_map.mp h1
        obtain ⟨htm, hcond⟩ := List.mem_filter.mp ht
        simp only [Bool.and_eq_true, Bool.not_eq_true'] at hcond
        exact ⟨rfl, hcond.2⟩
      · -- time shift
        unfold try_time_shift_rescheduling at h2
        obtain ⟨t, ht, rfl⟩ := List.mem_map.mp h2
        obtain ⟨htm, hcond⟩ := List.mem_filter.mp ht
        simp only [Bool.and_eq_true, Bool.not_eq_true'] at hcond
        exact ⟨rfl, hcond.2⟩
    · -- substitution
      unfold try_faculty_substitution at h3
      rcases hmat : faculty_substitution_matrix p.faculty entry.faculty.id with _ | subs
      · rw [hmat] at h3
        simp at h3
      · rw [hmat] at h3
        dsimp only at h3
        obtain ⟨sid, hsid, hsome⟩ := List.mem_filterMap.mp h3
        rcases hfind : p.faculty.find? (fun f => f.id = sid) with _ | sub
        · rw [hfind] at hsome
          simp at hsome
        · rw [hfind] at hsome
          dsimp only at hsome
          split_ifs at hsome with hguard
          simp only [Option.some.injEq] at hsome
          rw [← hsome]
          simp only [Bool.and_eq_true, Bool.not_eq_true'] at hguard
          exact ⟨rfl, hguard.2⟩
  · -- time + room change
    unfold try_complex_rescheduling at h4
    rw [List.mem_flatten] at h4
    obtain ⟨l, hl, hol⟩ := h4
    obtain ⟨t, ht, rfl⟩ := List.mem_map.mp hl
    obtain ⟨r, hr, rfl⟩ := List.mem_map.mp hol
    obtain ⟨hrm, hcond⟩ := List.mem_filter.mp hr
    simp only [Bool.and_eq_true, Bool.not_eq_true'] at hcond
    exact ⟨rfl, hcond.2⟩

/-- If an option was screened by `_conflicts_with_schedule` against the
whole schedule, inserting its replacement after removing the original
passes `check_conflicts`. -/
lemma replacement_check_clear (schedule : Schedule) (entry : ScheduleEntry)
    (o : RescheduleOption)
    (hcs : conflicts_with_schedule schedule entry.course o.substituteFaculty
      o.newClassroom o.newTimeSlot = false) :
    (({ schedule with entries := removeFirst o.originalEntry schedule.entries } :
        Schedule).check_conflicts
      ⟨entry.course, o.substituteFaculty, o.newClassroom, o.newTimeSlot⟩) = [] := by
  apply (check_conflicts_eq_nil_iff _ _).mpr
  intro e2 he2
  have he2' : e2 ∈ schedule.entries := mem_removeFirst _ _ _ he2
  unfold conflicts_with_schedule at hcs
  have hp := (List.any_eq_false.mp hcs) e2 he2'
  have hp2 : (o.newTimeSlot.overlaps_with e2.timeSlot &&
      (decide (o.substituteFaculty.id = e2.faculty.id)
        || decide (o.newClassroom.id = e2.classroom.id)
        || decide (entry.course.id = e2.course.id))) = false :=
    Bool.eq_false_iff.mpr hp
  simp only [Bool.and_eq_false_iff, Bool.or_eq_false_iff] at hp2
  unfold GraphBasedOptimizer.entries_conflict
  simp only [Bool.and_eq_false_iff, Bool.or_eq_false_iff]
  rcases hp2 with h | h
  · exact Or.inl h
  · exact Or.inr ⟨h.1.1, h.1.2⟩

/-- C3: whenever the re-scheduler applies the highest-scoring generated
option for an entry of the schedule, the original entry is removed, the
replacement is inserted via `add_entry`, and that insertion succeeds (no
conflict is recorded): the option generators screen every candidate with
a conflict check that subsumes `add_entry`'s.  (The fallback branch the
claim describes for a failed insertion is never reached on generated
options.) -/
theorem c3_theorem (p : ProblemData) (schedule : Schedule) (entry : ScheduleEntry)
    (u : FacultyUnavailability)
    (h1 : entry ∈ schedule.entries)
    (h2 : generate_reschedule_options p schedule entry u ≠ []) :
    (reschedule_entry p schedule entry u).2 = true
    ∧ (reschedule_entry p schedule entry u).1.conflicts = schedule.conflicts
    ∧ ∃ o ∈ generate_reschedule_options p schedule entry u,
        (∀ o2 ∈ generate_reschedule_options p schedule entry u,
          (calculate_feasibility_score o2).ble (calculate_feasibility_score o) = true)
        ∧ (reschedule_entry p schedule entry u).1.entries
            = removeFirst entry schedule.entries
              ++ [⟨entry.course, o.substituteFaculty, o.newClassroom, o.newTimeSlot⟩] := by
  obtain ⟨o0, os, hoo⟩ := List.exists_cons_of_ne_nil h2
  obtain ⟨hmem0, hble0, hall0⟩ :=
    argmaxFirst_spec calculate_feasibility_score feasibility_score_den os o0
  set best := argmaxFirst calculate_feasibility_score o0 os with hbestdef
  have hred : reschedule_entry p schedule entry u
      = apply_reschedule_option schedule best := by
    unfold reschedule_entry
    rw [hoo]
  have hbestmem : best ∈ generate_reschedule_options p schedule entry u := by
    rw [hoo]
    rcases hmem0 with h | h
    · rw [h]
      exact List.mem_cons_self o0 os
    · exact List.mem_cons_of_mem o0 h
  obtain ⟨horig, hclear⟩ := generated_option_props p schedule entry u best hbestmem
  have hnil := replacement_check_clear schedule entry best hclear
  have hok : (({ schedule with
        entries := removeFirst best.originalEntry schedule.entries } :
      Schedule).check_conflicts
      ⟨entry.course, best.substituteFaculty, best.newClassroom,
        best.newTimeSlot⟩).isEmpty = true := by
    rw [hnil]
    rfl
  have happly : apply_reschedule_option schedule best
      = ((({ schedule with
            entries := removeFirst best.originalEntry schedule.entries } :
          Schedule).add_entry
          ⟨best.originalEntry.course, best.substituteFaculty, best.newClassroom,
            best.newTimeSlot⟩).1, true) := by
    unfold apply_reschedule_option
    rw [if_pos (show best.originalEntry ∈ schedule.entries by rw [horig]; exact h1)]
  have horigc : best.originalEntry.course = entry.course := by rw [horig]
  rw [horigc] at happly
  refine ⟨?_, ?_, ⟨best, hbestmem, ?_, ?_⟩⟩
  · rw [hred, happly]
  · rw [hred, happly, add_entry_fst_of_clear _ _ hok]
  · intro o2 ho2
    rw [hoo] at ho2
    rcases List.mem_cons.mp ho2 with h | h
    · rw [h]
      exact hble0
    · exact hall0 o2 h
  · rw [hred, happly, add_entry_fst_of_clear _ _ hok]
    simp only []
    rw [horig]

/-- Witness for C3 at the concrete instance: applying the best of the
three generated free-period options succeeds and records no conflict. -/
theorem c3_witness :
    (reschedule_entry exPE exSchedE exEntryE exUE).2 = true
    ∧ (reschedule_entry exPE exSchedE exEntryE exUE).1.conflicts = exSchedE.conflicts := by
  have h := c3_theorem exPE exSchedE exEntryE exUE (by decide) (by decide)
  exact ⟨h.1, h.2.1⟩

/-! ## C6 — what the optimiser's replacement search guarantees -/

lemma mem_candidateTuples (ts : List TimeSlot) (rs : List Classroom)
    (fs : List Faculty) (cand : TimeSlot × Classroom × Faculty)
    (h : cand ∈ candidateTuples ts rs fs) :
    cand.1 ∈ ts ∧ cand.2.1 ∈ rs ∧ cand.2.2 ∈ fs := by
  unfold candidateTuples at h
  rw [List.mem_flatten] at h
  obtain ⟨l, hl, hcl⟩ := h
  obtain ⟨t, ht, rfl⟩ := List.mem_map.mp hl
  rw [List.mem_flatten] at hcl
  obtain ⟨l2, hl2, hcl2⟩ := hcl
  obtain ⟨r, hr, rfl⟩ := List.mem_map.mp hl2
  obtain ⟨f, hf, rfl⟩ := List.mem_map.mp hcl2
  exact ⟨ht, hr, hf⟩

/-- The optimiser's per-assignment score has a nonnegative numerator and a
positive denominator whenever the room capacity is positive. -/
lemma opt_score_nonneg_pos (c : Course) (f : Faculty) (r : Classroom)
    (t : TimeSlot) (hcap : 0 < r.capacity) :
    0 ≤ (GraphBasedOptimizer.calculate_assignment_score c f r t).num
    ∧ 0 < (GraphBasedOptimizer.calculate_assignment_score c f r t).den := by
  unfold GraphBasedOptimizer.calculate_assignment_score optimizerRoomUtilTerm
    Faculty.get_preference_score Score.ratio
  split_ifs <;>
    (constructor <;>
      (simp only [score_add_num, score_add_den, score_mul_num, score_mul_den,
        score_num0, score_den0, score_num5, score_den5, score_num10, score_den10,
        score_num15, score_den15, score_num20, score_den20, score_one_num,
        score_one_den, Nat.cast_ofNat, Nat.cast_one, Nat.cast_mul]
       omega))

lemma score_blt_neg1 {a : Score} (hnum : 0 ≤ a.num) (hden : 0 < a.den) :
    (⟨-1, 1⟩ : Score).blt a = true := by
  unfold Score.blt
  simp only [decide_eq_true_eq]
  have : (0 : Int) < a.den := by exact_mod_cast hden
  omega

lemma score_ble_trans {a b c : Score} (hab : a.ble b = true) (hbc : b.ble c = true)
    (hb : 0 < b.den) : a.ble c = true := by
  unfold Score.ble at *
  simp only [decide_eq_true_eq] at *
  have hbpos : (0 : Int) < b.den := by exact_mod_cast hb
  have hapos : (0 : Int) ≤ a.den := Int.ofNat_nonneg a.den
  have hcpos : (0 : Int) ≤ c.den := Int.ofNat_nonneg c.den
  nlinarith [mul_le_mul_of_nonneg_right hab hcpos,
    mul_le_mul_of_nonneg_right hbc hapos]

/-- Invariant of the `_find_better_assignment` fold: the accumulator is
the initial `(-1, None)` or the first maximum so far, feasible, with its
own score recorded. -/
def OptAcc (e : ScheduleEntry) (sched : Schedule)
    (acc : Score × Option (Course × Faculty × Classroom × TimeSlot)) : Prop :=
  acc = (⟨-1, 1⟩, none)
  ∨ ∃ t r f, optFeasible e sched (t, r, f) = true
      ∧ acc = (GraphBasedOptimizer.calculate_assignment_score e.course f r t,
          some (e.course, f, r, t))
      ∧ 0 ≤ acc.1.num ∧ 0 < acc.1.den

lemma optAcc_den_pos {e : ScheduleEntry} {sched : Schedule}
    {acc : Score × Option (Course × Faculty × Classroom × TimeSlot)}
    (h : OptAcc e sched acc) : 0 < acc.1.den := by
  rcases h with h | ⟨t, r, f, _, _, _, hden⟩
  · rw [h]
    exact Nat.one_pos
  · exact hden

lemma opt_fold_spec (e : ScheduleEntry) (sched : Schedule) :
    ∀ (l : List (TimeSlot × Classroom × Faculty))
      (acc : Score × Option (Course × Faculty × Classroom × TimeSlot)),
    (∀ cand ∈ l, 0 < cand.2.1.capacity) →
    OptAcc e sched acc →
    OptAcc e sched (l.foldl (optimizerStep e.course sched) acc)
    ∧ (acc.1.ble (l.foldl (optimizerStep e.course sched) acc).1 = true)
    ∧ (∀ cand ∈ l, optFeasible e sched cand = true →
        (GraphBasedOptimizer.calculate_assignment_score e.course cand.2.2
          cand.2.1 cand.1).ble
          (l.foldl (optimizerStep e.course sched) acc).1 = true) := by
  intro l
  induction l with
  | nil =>
    intro acc _ hacc
    exact ⟨hacc, score_ble_refl _, by simp⟩
  | cons c0 l ih =>
    intro acc hl hacc
    have hcap0 : 0 < c0.2.1.capacity := hl c0 (List.mem_cons_self c0 l)
    have hlrest : ∀ cand ∈ l, 0 < cand.2.1.capacity :=
      fun cand hc => hl cand (List.mem_cons_of_mem c0 hc)
    obtain ⟨hsnum, hsden⟩ := opt_score_nonneg_pos e.course c0.2.2 c0.2.1 c0.1 hcap0
    rw [List.foldl_cons]
    by_cases hguard : (c0.2.2.is_available c0.1
        && e.course.is_compatible_with_room c0.2.1) = true
    · by_cases hcheck : (sched.check_conflicts
          ⟨e.course, c0.2.2, c0.2.1, c0.1⟩).isEmpty = true
      · have hfeas : optFeasible e sched c0 = true := by
          unfold optFeasible
          rw [Bool.and_eq_true]
          exact ⟨hguard, hcheck⟩
        by_cases hblt : acc.1.blt (GraphBasedOptimizer.calculate_assignment_score
            e.course c0.2.2 c0.2.1 c0.1) = true
        · have hstep : optimizerStep e.course sched acc c0
              = (GraphBasedOptimizer.calculate_assignment_score e.course c0.2.2
                  c0.2.1 c0.1, some (e.course, c0.2.2, c0.2.1, c0.1)) := by
            unfold optimizerStep
            rw [if_pos hguard, if_pos hcheck, if_pos hblt]
          rw [hstep]
          have hacc' : OptAcc e sched (GraphBasedOptimizer.calculate_assignment_score
              e.course c0.2.2 c0.2.1 c0.1, some (e.course, c0.2.2, c0.2.1, c0.1)) :=
            Or.inr ⟨c0.1, c0.2.1, c0.2.2, hfeas, rfl, hsnum, hsden⟩
          obtain ⟨hrecacc, hrecmono, hrecall⟩ := ih _ hlrest hacc'
          refine ⟨hrecacc, ?_, ?_⟩
          · exact score_ble_trans (score_ble_of_blt hblt) hrecmono hsden
          · intro cand hcand hfc
            rcases List.mem_cons.mp hcand with h | h
            · rw [h]
              exact hrecmono
            · exact hrecall cand h hfc
        · have hstep : optimizerStep e.course sched acc c0 = acc := by
            unfold optimizerStep
            rw [if_pos hguard, if_pos hcheck, if_neg hblt]
          rw [hstep]
          obtain ⟨hrecacc, hrecmono, hrecall⟩ := ih _ hlrest hacc
          refine ⟨hrecacc, hrecmono, ?_⟩
          intro cand hcand hfc
          rcases List.mem_cons.mp hcand with h | h
          · rw [h]
            have hbltf : acc.1.blt (GraphBasedOptimizer.calculate_assignment_score
                e.course c0.2.2 c0.2.1 c0.1) = false := by
              rw [← Bool.not_eq_true]
              exact hblt
            exact score_ble_trans (score_ble_of_not_blt hbltf) hrecmono
              (optAcc_den_pos hacc)
          · exact hrecall cand h hfc
      · have hstep : optimizerStep e.course sched acc c0 = acc := by
          unfold optimizerStep
          rw [if_pos hguard, if_neg hcheck]
        rw [hstep]
        obtain ⟨hrecacc, hrecmono, hrecall⟩ := ih _ hlrest hacc
        refine ⟨hrecacc, hrecmono, ?_⟩
        intro cand hcand hfc
        rcases List.mem_cons.mp hcand with h | h
        · exfalso
          rw [h] at hfc
          unfold optFeasible at hfc
          rw [Bool.and_eq_true] at hfc
          exact hcheck hfc.2
        · exact hrecall cand h hfc
    · have hstep : optimizerStep e.course sched acc c0 = acc := by
        unfold optimizerStep
        rw [if_neg hguard]
      rw [hstep]
      obtain ⟨hrecacc, hrecmono, hrecall⟩ := ih _ hlrest hacc
      refine ⟨hrecacc, hrecmono, ?_⟩
      intro cand hcand hfc
      rcases List.mem_cons.mp hcand with h | h
      · exfalso
        rw [h] at hfc
        unfold optFeasible at hfc
        rw [Bool.and_eq_true] at hfc
        exact hguard hfc.1
      · exact hrecall cand h hfc

/-- C6 amended: `_find_better_assignment` returns `none` exactly when no
candidate tuple is feasible (available faculty, compatible room, no
conflict with the schedule being rebuilt); otherwise it returns a feasible
tuple for the entry's own course whose per-assignment score is maximal
among all feasible candidates — possibly merely equal to the original
tuple's score, not strictly higher.  Neither score monotonicity nor
validity preservation holds for `optimize_schedule` (see the
counterexample). -/
theorem c6_amended (p : ProblemData) (e : ScheduleEntry) (sched : Schedule)
    (hcap : p.classrooms.all (fun r => decide (0 < r.capacity)) = true) :
    (GraphBasedOptimizer.find_better_assignment p e sched = none →
      (candidateTuples p.timeSlots p.classrooms
        (optimizerFacultyPool p.faculty e.course)).all
        (fun cand => !optFeasible e sched cand) = true)
    ∧ (∀ c f r t,
        GraphBasedOptimizer.find_better_assignment p e sched = some (c, f, r, t) →
        c = e.course
        ∧ optFeasible e sched (t, r, f) = true
        ∧ ∀ cand ∈ candidateTuples p.timeSlots p.classrooms
            (optimizerFacultyPool p.faculty e.course),
            optFeasible e sched cand = true →
            (GraphBasedOptimizer.calculate_assignment_score e.course cand.2.2
              cand.2.1 cand.1).ble
              (GraphBasedOptimizer.calculate_assignment_score c f r t) = true) := by
  have hl : ∀ cand ∈ candidateTuples p.timeSlots p.classrooms
      (optimizerFacultyPool p.faculty e.course), 0 < cand.2.1.capacity := by
    intro cand hcand
    have hm := mem_candidateTuples _ _ _ cand hcand
    have h2 := List.all_eq_true.mp hcap _ hm.2.1
    simpa using h2
  obtain ⟨hfin, hmono, hall⟩ := opt_fold_spec e sched
    (candidateTuples p.timeSlots p.classrooms
      (optimizerFacultyPool p.faculty e.course))
    (⟨-1, 1⟩, none) hl (Or.inl rfl)
  have hfb : GraphBasedOptimizer.find_better_assignment p e sched
      = ((candidateTuples p.timeSlots p.classrooms
          (optimizerFacultyPool p.faculty e.course)).foldl
          (optimizerStep e.course sched) (⟨-1, 1⟩, none)).2 := rfl
  constructor
  · intro hnone
    rw [hfb] at hnone
    rcases hfin with hinit | ⟨t, r, f, hfeas, heq, _, _⟩
    · rw [List.all_eq_true]
      intro cand hcand
      cases hv : optFeasible e sched cand with
      | false => rfl
      | true =>
        exfalso
        have hble := hall cand hcand hv
        rw [hinit] at hble
        obtain ⟨hn, hd⟩ := opt_score_nonneg_pos e.course cand.2.2 cand.2.1 cand.1
          (hl cand hcand)
        unfold Score.ble at hble
        simp only [decide_eq_true_eq] at hble
        omega
    · rw [heq] at hnone
      simp at hnone
  · intro c f r t hsome
    rw [hfb] at hsome
    rcases hfin with hinit | ⟨t2, r2, f2, hfeas, heq, _, _⟩
    · rw [hinit] at hsome
      simp at hsome
    · rw [heq] at hsome
      simp only [Option.some.injEq, Prod.mk.injEq] at hsome
      obtain ⟨hc, hf, hr, ht⟩ := hsome
      refine ⟨hc.symm, ?_, ?_⟩
      · rw [← hf, ← hr, ← ht]
        exact hfeas
      · intro cand hcand hfcand
        have hble := hall cand hcand hfcand
        rw [heq] at hble
        rw [← hc, ← hf, ← hr, ← ht]
        exact hble

/-- Witness for C6's amended theorem: the tuple the optimiser returns at
the concrete instance is feasible. -/
theorem c6_witness :
    optFeasible exEntryA Schedule.empty (exSlotA, exRoom2A, exFacA) = true := by
  have h := (c6_amended exPA exEntryA Schedule.empty (by decide)).2
    exCourseA exFacA exRoom2A exSlotA (by decide)
  exact h.2.1

/-! ## C2 — unary constraints on solver and optimiser outputs -/

lemma foldl_preserve_mem {α β : Type} (P : β → Prop) (step : β → α → β) :
    ∀ (l : List α) (acc : β), P acc →
    (∀ b a, a ∈ l → P b → P (step b a)) → P (l.foldl step acc) := by
  intro l
  induction l with
  | nil => intro acc h _; exact h
  | cons a l ih =>
    intro acc h hstep
    exact ih _ (hstep _ _ (List.mem_cons_self a l) h)
      (fun b x hx hb => hstep b x (List.mem_cons_of_mem a hx) hb)

lemma mem_insertStable {α : Type} (le : α → α → Bool) (x a : α) :
    ∀ (l : List α), a ∈ insertStable le x l ↔ a = x ∨ a ∈ l := by
  intro l
  induction l with
  | nil => simp [insertStable]
  | cons y ys ih =>
    unfold insertStable
    split_ifs with hy
    · rw [List.mem_cons, ih, List.mem_cons]
      tauto
    · rw [List.mem_cons, List.mem_cons]

lemma mem_stableSortBy {α : Type} (le : α → α → Bool) (a : α) (l : List α) :
    a ∈ stableSortBy le l ↔ a ∈ l := by
  unfold stableSortBy
  suffices h : ∀ (l acc : List α),
      (a ∈ l.foldl (fun acc x => insertStable le x acc) acc ↔ a ∈ acc ∨ a ∈ l) by
    rw [h l []]
    simp
  intro l
  induction l with
  | nil => intro acc; simp
  | cons x xs ih =>
    intro acc
    rw [List.foldl_cons, ih, mem_insertStable, List.mem_cons]
    tauto

lemma argminFirst_mem {α : Type} (f : α → Nat) :
    ∀ (l : List α) (b : α), argminFirst f b l = b ∨ argminFirst f b l ∈ l := by
  intro l
  induction l with
  | nil => intro b; exact Or.inl rfl
  | cons x xs ih =>
    intro b
    by_cases hlt : f x < f b
    · have hred : argminFirst f b (x :: xs) = argminFirst f x xs := by
        simp [argminFirst, hlt]
      rw [hred]
      rcases ih x with h | h
      · right
        rw [h]
        exact List.mem_cons_self x xs
      · exact Or.inr (List.mem_cons_of_mem x h)
    · have hred : argminFirst f b (x :: xs) = argminFirst f b xs := by
        simp [argminFirst, hlt]
      rw [hred]
      rcases ih b with h | h
      · exact Or.inl h
      · exact Or.inr (List.mem_cons_of_mem x h)

/-- All domain values of a variable satisfy the unary constraints of its
course. -/
def DomainsGood (vars : List Course) (d : Nat → List CSPValue) : Prop :=
  ∀ i v, v ∈ d i → unaryOK (varCourse vars i) v = true

/-- All assigned values satisfy the unary constraints of their variable's
course. -/
def AssignGood (vars : List Course) (assign : List (Nat × CSPValue)) : Prop :=
  ∀ pr ∈ assign, unaryOK (varCourse vars pr.1) pr.2 = true

lemma initial_domains_good (p : ProblemData) (vars : List Course) :
    DomainsGood vars (initial_domains p vars) := by
  intro i v hv
  unfold initial_domains at hv
  exact (List.mem_filter.mp hv).2

lemma forward_check_good {vars : List Course} {d : Nat → List CSPValue}
    (hd : DomainsGood vars d) (v : CSPValue) (assign' : List (Nat × CSPValue)) :
    DomainsGood vars (forward_check vars v assign' d) := by
  intro i w hw
  unfold forward_check at hw
  by_cases hi : fcAffected vars assign' i = true
  · rw [if_pos hi] at hw
    exact hd i w (List.mem_filter.mp hw).1
  · rw [if_neg hi] at hw
    exact hd i w hw

lemma restore_domains_good {vars : List Course} {saved current : Nat → List CSPValue}
    (hs : DomainsGood vars saved) (hc : DomainsGood vars current)
    (pred : Nat → Bool) :
    DomainsGood vars (restore_domains pred saved current) := by
  intro i w hw
  unfold restore_domains at hw
  by_cases hi : pred i = true
  · rw [if_pos hi] at hw
    exact hs i w hw
  · rw [if_neg hi] at hw
    exact hc i w hw

lemma tryValues_good (vars : List Course)
    (bt : List (Nat × CSPValue) → (Nat → List CSPValue) →
      Option (List (Nat × CSPValue)) × (Nat → List CSPValue))
    (hbt : ∀ assign d, DomainsGood vars d → AssignGood vars assign →
      DomainsGood vars (bt assign d).2
      ∧ ∀ a, (bt assign d).1 = some a → AssignGood vars a)
    (var : Nat) :
    ∀ (vs : List CSPValue) (assign : List (Nat × CSPValue)) (d : Nat → List CSPValue),
    (∀ v ∈ vs, unaryOK (varCourse vars var) v = true) →
    DomainsGood vars d → AssignGood vars assign →
    DomainsGood vars (tryValues bt vars var vs assign d).2
    ∧ ∀ a, (tryValues bt vars var vs assign d).1 = some a → AssignGood vars a := by
  intro vs
  induction vs with
  | nil =>
    intro assign d _ hd _
    refine ⟨hd, ?_⟩
    intro a ha
    simp [tryValues] at ha
  | cons v vs ih =>
    intro assign d hvs hd hassign
    have hv := hvs v (List.mem_cons_self v vs)
    have hvs' : ∀ w ∈ vs, unaryOK (varCourse vars var) w = true :=
      fun w hw => hvs w (List.mem_cons_of_mem v hw)
    have hassign' : AssignGood vars (assign ++ [(var, v)]) := by
      intro pr hpr
      rcases List.mem_append.mp hpr with h | h
      · exact hassign pr h
      · rw [List.mem_singleton.mp h]
        exact hv
    show DomainsGood vars (tryValues bt vars var (v :: vs) assign d).2
      ∧ ∀ a, (tryValues bt vars var (v :: vs) assign d).1 = some a → AssignGood vars a
    unfold tryValues
    by_cases hcons : is_consistent vars (assign ++ [(var, v)]) = true
    · rw [if_pos hcons]
      rcases hres : bt (assign ++ [(var, v)])
        (forward_check vars v (assign ++ [(var, v)]) d) with ⟨ores, d2⟩
      have hbtres := hbt (assign ++ [(var, v)])
        (forward_check vars v (assign ++ [(var, v)]) d)
        (forward_check_good hd v _) hassign'
      rw [hres] at hbtres
      cases ores with
      | some a =>
        refine ⟨hbtres.1, ?_⟩
        intro a2 ha2
        simp only [Option.some.injEq] at ha2
        exact ha2 ▸ hbtres.2 a rfl
      | none =>
        have hrec := ih assign (restore_domains (fcAffected vars (assign ++ [(var, v)])) d d2)
          hvs' (restore_domains_good hd hbtres.1 _) hassign
        exact hrec
    · rw [if_neg hcons]
      exact ih assign d hvs' hd hassign

lemma backtrack_good (vars : List Course) :
    ∀ (fuel : Nat) (assign : List (Nat × CSPValue)) (d : Nat → List CSPValue),
    DomainsGood vars d → AssignGood vars assign →
    DomainsGood vars (backtrack vars fuel assign d).2
    ∧ ∀ a, (backtrack vars fuel assign d).1 = some a → AssignGood vars a := by
  intro fuel
  induction fuel with
  | zero =>
    intro assign d hd _
    exact ⟨hd, by intro a ha; simp [backtrack] at ha⟩
  | succ fuel ih =>
    intro assign d hd hassign
    show DomainsGood vars (backtrack vars (fuel + 1) assign d).2
      ∧ ∀ a, (backtrack vars (fuel + 1) assign d).1 = some a → AssignGood vars a
    unfold backtrack
    by_cases hlen : assign.length = vars.length
    · rw [if_pos hlen]
      refine ⟨hd, ?_⟩
      intro a ha
      by_cases hcons : is_consistent vars assign = true
      · rw [if_pos hcons] at ha
        simp only [Option.some.injEq] at ha
        exact ha ▸ hassign
      · rw [if_neg hcons] at ha
        simp at ha
    · rw [if_neg hlen]
      rcases hmrv : select_unassigned_variable_mrv vars assign d with _ | var
      · exact ⟨hd, by intro a ha; simp at ha⟩
      · have hvs : ∀ v ∈ order_domain_values_lcv vars assign d var,
            unaryOK (varCourse vars var) v = true := by
          intro v hv
          unfold order_domain_values_lcv at hv
          exact hd var v ((mem_stableSortBy _ v _).mp hv)
        exact tryValues_good vars (fun a dd => backtrack vars fuel a dd)
          (fun a dd hdd haa => ih a dd hdd haa) var
          (order_domain_values_lcv vars assign d var) assign d hvs hd hassign

lemma csp_schedule_unary (vars : List Course) (assign : List (Nat × CSPValue))
    (hgood : AssignGood vars assign) :
    (assignment_to_schedule vars assign).entries.all entryUnaryOK = true := by
  unfold assignment_to_schedule
  rw [calculate_optimization_score_entries]
  apply foldl_preserve_mem
    (fun s => s.entries.all entryUnaryOK = true) _ assign Schedule.empty rfl
  intro s pr hpr hs
  apply add_entry_entries_ok _ _ _ hs
  exact hgood pr hpr

/-- C2 amended: every entry of a greedy- or CSP-produced schedule
satisfies the three unary constraints; a tuple chosen by the optimiser's
replacement search is guaranteed only faculty availability and room
compatibility — the duration bound is not checked there (see the
counterexample). -/
theorem c2_amended (p : ProblemData) :
    ((GreedySolver.solve p).entries.all entryUnaryOK = true)
    ∧ (∀ s, (CSPSolver.solve p).1 = some s → s.entries.all entryUnaryOK = true)
    ∧ (∀ e sched c f r t,
        GraphBasedOptimizer.find_better_assignment p e sched = some (c, f, r, t) →
        f.is_available t = true ∧ c.is_compatible_with_room r = true) := by
  refine ⟨?_, ?_, ?_⟩
  · unfold GreedySolver.solve
    rw [calculate_optimization_score_entries]
    apply foldl_preserve_mem (fun s => s.entries.all entryUnaryOK = true)
      _ _ Schedule.empty rfl
    intro sched cs _ hsched
    rcases hfb : GreedySolver.find_best_assignment p cs.1 sched with _ | ⟨t, r, f⟩
    · exact hsched
    · have hg := (greedy_find_best_guards p cs.1 sched t r f hfb).1
      exact add_entry_entries_ok _ _ _ hsched hg
  · intro s hs
    unfold CSPSolver.solve at hs
    rcases hres : backtrack (cspVariables p.courses)
        ((cspVariables p.courses).length + 1) []
        (initial_domains p (cspVariables p.courses)) with ⟨ores, d⟩
    rw [hres] at hs
    cases ores with
    | none => simp at hs
    | some a =>
      simp only [Option.some.injEq] at hs
      have hgood := (backtrack_good (cspVariables p.courses)
        ((cspVariables p.courses).length + 1) []
        (initial_domains p (cspVariables p.courses))
        (initial_domains_good p _) (by intro pr hpr; simp at hpr)).2
      rw [hres] at hgood
      have := csp_schedule_unary (cspVariables p.courses) a (hgood a rfl)
      rw [← hs]
      exact this
  · intro e sched c f r t hsome
    unfold GraphBasedOptimizer.find_better_assignment at hsome
    have key := foldl_preserve
      (fun (acc : Score × Option (Course × Faculty × Classroom × TimeSlot)) =>
        ∀ c f r t, acc.2 = some (c, f, r, t) →
          f.is_available t = true ∧ c.is_compatible_with_room r = true)
      (optimizerStep e.course sched) ?_
      (candidateTuples p.timeSlots p.classrooms
        (optimizerFacultyPool p.faculty e.course))
      (⟨-1, 1⟩, none) (by intro c f r t h2; exact absurd h2 (by simp))
    · exact key c f r t hsome
    · rintro ⟨bs, bo⟩ cand hP c2 f2 r2 t2
      unfold optimizerStep
      split_ifs with h1 h2 h3
      · intro heq
        simp only [Option.some.injEq, Prod.mk.injEq] at heq
        obtain ⟨hc, hf, hr, ht⟩ := heq
        rw [Bool.and_eq_true] at h1
        rw [← hc, ← hf, ← hr, ← ht]
        exact ⟨h1.1, h1.2⟩
      · exact hP c2 f2 r2 t2
      · exact hP c2 f2 r2 t2
      · exact hP c2 f2 r2 t2

/-- Witness for C2's amended theorem at the two-course instance. -/
theorem c2_witness : (GreedySolver.solve exP8).entries.all entryUnaryOK = true :=
  (c2_amended exP8).1

/-! ## C8 — domain restoration on the `None` paths only -/

lemma restore_forward_id (vars : List Course) (v : CSPValue)
    (assign' : List (Nat × CSPValue)) (d : Nat → List CSPValue) :
    restore_domains (fcAffected vars assign') d
      (forward_check vars v assign' d) = d := by
  funext i
  unfold restore_domains forward_check
  by_cases hi : fcAffected vars assign' i = true
  · rw [if_pos hi]
  · rw [if_neg hi, if_neg hi]

lemma tryValues_none_preserves (vars : List Course)
    (bt : List (Nat × CSPValue) → (Nat → List CSPValue) →
      Option (List (Nat × CSPValue)) × (Nat → List CSPValue))
    (hbt : ∀ a d, (bt a d).1 = none → (bt a d).2 = d) (var : Nat) :
    ∀ (vs : List CSPValue) (assign : List (Nat × CSPValue)) (d : Nat → List CSPValue),
    (tryValues bt vars var vs assign d).1 = none →
    (tryValues bt vars var vs assign d).2 = d := by
  intro vs
  induction vs with
  | nil => intro assign d _; rfl
  | cons v vs ih =>
    intro assign d
    show (tryValues bt vars var (v :: vs) assign d).1 = none →
      (tryValues bt vars var (v :: vs) assign d).2 = d
    unfold tryValues
    by_cases hcons : is_consistent vars (assign ++ [(var, v)]) = true
    · rw [if_pos hcons]
      rcases hres : bt (assign ++ [(var, v)])
        (forward_check vars v (assign ++ [(var, v)]) d) with ⟨ores, d2⟩
      cases ores with
      | some a => intro h; simp at h
      | none =>
        intro h
        have hd2 : d2 = forward_check vars v (assign ++ [(var, v)]) d := by
          have h3 := hbt (assign ++ [(var, v)])
            (forward_check vars v (assign ++ [(var, v)]) d) (by rw [hres])
          rw [hres] at h3
          exact h3
        rw [ih assign _ h, hd2, restore_forward_id]
    · rw [if_neg hcons]
      exact ih assign d

lemma backtrack_none_preserves (vars : List Course) :
    ∀ (fuel : Nat) (assign : List (Nat × CSPValue)) (d : Nat → List CSPValue),
    (backtrack vars fuel assign d).1 = none →
    (backtrack vars fuel assign d).2 = d := by
  intro fuel
  induction fuel with
  | zero => intro assign d _; rfl
  | succ fuel ih =>
    intro assign d
    show (backtrack vars (fuel + 1) assign d).1 = none →
      (backtrack vars (fuel + 1) assign d).2 = d
    unfold backtrack
    by_cases hlen : assign.length = vars.length
    · rw [if_pos hlen]
      intro _
      rfl
    · rw [if_neg hlen]
      rcases hmrv : select_unassigned_variable_mrv vars assign d with _ | var
      · intro _
        rfl
      · exact tryValues_none_preserves vars (fun a dd => backtrack vars fuel a dd)
          (fun a dd h => ih a dd h) var
          (order_domain_values_lcv vars assign d var) assign d

/-- C8 amended: when `CSPSolver.solve` returns `None` (unsatisfiable or
deadline), every variable's domain on return equals its domain before the
call; when a schedule is returned, the domains pruned by forward checking
along the successful branch are not restored (see the counterexample). -/
theorem c8_amended (p : ProblemData) (h : (CSPSolver.solve p).1 = none) :
    (CSPSolver.solve p).2 = initial_domains p (cspVariables p.courses) := by
  unfold CSPSolver.solve at h ⊢
  rcases hres : backtrack (cspVariables p.courses)
      ((cspVariables p.courses).length + 1) []
      (initial_domains p (cspVariables p.courses)) with ⟨ores, d⟩
  rw [hres] at h
  cases ores with
  | some a => exact Option.noConfusion h
  | none =>
    have hpre := backtrack_none_preserves (cspVariables p.courses)
      ((cspVariables p.courses).length + 1) []
      (initial_domains p (cspVariables p.courses)) (by rw [hres])
    rw [hres] at hpre
    exact hpre

/-- Witness for C8's amended theorem: an unsatisfiable instance (90-minute
course, 60-minute slot) returns `None` with its (empty) domains intact. -/
theorem c8_witness :
    (CSPSolver.solve exPF).2 = initial_domains exPF (cspVariables exPF.courses) :=
  c8_amended exPF (by decide)

end Timetable
